import Mathlib

/-
Verification development for the x402-tron repository (TypeScript sources under
src/typescript). Each TypeScript function relevant to the checked claims is
shallowly embedded as an executable Lean definition operating on Lean data:

- JavaScript strings are modelled as Lean String values and every string
  operation the code uses (startsWith, endsWith, slice, padStart, toLowerCase,
  regular-expression tests) is implemented here over String.data so that the
  kernel can evaluate it;
- JavaScript BigInt and number values are modelled as Nat (all values the code
  manipulates are non-negative); the floating-point division performed by
  normalizedCost is modelled by exact rational division (mkRat);
- optional / possibly-absent JSON fields are modelled as Option;
- code that can throw is modelled with Except String; console logging is
  dropped (it has no effect on values);
- wall-clock time in polling loops is abstracted: a loop observes the list of
  values the polled endpoint returns at the successive poll instants that fall
  inside the time budget, so the budget becomes the length of that list.
-/

set_option maxRecDepth 8000

namespace X402

/- Section 1: JavaScript string primitives used by the embedded code. -/

/-- JavaScript s.startsWith(p). -/
def jsStartsWith (s p : String) : Bool := p.data.isPrefixOf s.data

/-- JavaScript s.endsWith(p). -/
def jsEndsWith (s p : String) : Bool := p.data.isSuffixOf s.data

/-- JavaScript s.length (the code only handles ASCII strings, where UTF-16
length and character count agree). -/
def jsLength (s : String) : Nat := s.data.length

/-- JavaScript s.slice(n) for a non-negative n. -/
def jsSliceFrom (s : String) (n : Nat) : String := String.mk (s.data.drop n)

/-- JavaScript s.slice(-n): the last n characters (the whole string when it is
shorter than n). -/
def jsSliceLast (s : String) (n : Nat) : String :=
  String.mk (s.data.drop (s.data.length - n))

/-- JavaScript s.slice(0, -n): the string without its last n characters (empty
when it is not longer than n). -/
def jsSliceDropLast (s : String) (n : Nat) : String :=
  String.mk (s.data.take (s.data.length - n))

/-- JavaScript s.padStart(n, c). -/
def jsPadStart (s : String) (n : Nat) (c : Char) : String :=
  String.mk (List.replicate (n - s.data.length) c ++ s.data)

/-- ASCII lower-casing of one character, as JavaScript toLowerCase does on the
ASCII range the code feeds it. -/
def charLower (c : Char) : Char :=
  if 65 ≤ c.toNat ∧ c.toNat ≤ 90 then Char.ofNat (c.toNat + 32) else c

/-- JavaScript s.toLowerCase() on ASCII strings. -/
def jsToLowerCase (s : String) : String := String.mk (s.data.map charLower)

/-- JavaScript falsy-or on an optional numeric string field (a || d): an absent
field falls back to the default; a present decimal string, including "0", is
truthy and wins. The string is modelled by its numeric value. -/
def jsOrStrNum (a : Option Nat) (d : Nat) : Nat :=
  match a with
  | some v => v
  | none => d

/-- JavaScript falsy-or on an optional number field (a || d): an absent field
and the number 0 are both falsy and fall back to the default. -/
def jsOrNum (a : Option Nat) (d : Nat) : Nat :=
  match a with
  | some v => if v = 0 then d else v
  | none => d

/- Section 2: AddressCodec, embedded from
src/typescript/packages/core/src/address.ts. -/

/-- Base58 alphabet for TRON addresses (BASE58_ALPHABET in address.ts). -/
def BASE58_ALPHABET : List Char :=
  "123456789ABCDEFGHJKLMNPQRSTUVWXYZabcdefghijkmnopqrstuvwxyz".data

/-- Zero address in EVM hex format (ZERO_ADDRESS_HEX in address.ts). -/
def ZERO_ADDRESS_HEX : String := "0x0000000000000000000000000000000000000000"

/-- Value of one Base58 character (the alphabetMap lookup in base58ToEvmHex);
none models the undefined lookup for a character outside the alphabet. -/
def base58Index (c : Char) : Option Nat := BASE58_ALPHABET.indexOf? c

/-- The accumulating Base58 decoding loop of base58ToEvmHex: num = num * 58 +
value, aborting (none) on the first character outside the alphabet. -/
def base58DecodeNum : List Char → Nat → Option Nat
  | [], acc => some acc
  | c :: cs, acc =>
    match base58Index c with
    | none => none
    | some v => base58DecodeNum cs (acc * 58 + v)

/-- JavaScript num.toString(16) for a BigInt: lowercase hex digits, "0" for
zero. -/
def natToHexLower (n : Nat) : String := String.mk (Nat.toDigits 16 n)

/-- Test of the regular expression T0+ used by toEvmHex (a T followed by one or
more ASCII zeros, and nothing else). -/
def isTZeroPlaceholder (s : String) : Bool :=
  match s.data with
  | 'T' :: rest => !rest.isEmpty && rest.all (fun c => c = '0')
  | _ => false

/-- One hexadecimal character, as in the character class [0-9a-fA-F]. -/
def isHexDigitChar (c : Char) : Bool :=
  ('0' ≤ c && c ≤ '9') || ('a' ≤ c && c ≤ 'f') || ('A' ≤ c && c ≤ 'F')

/-- Test of the regular expression [0-9a-fA-F]+ used by toEvmHex (one or more
hex characters, nothing else). -/
def isAllHex (s : String) : Bool :=
  !s.data.isEmpty && s.data.all isHexDigitChar

/-- Embedding of base58ToEvmHex from address.ts: decode the Base58 number,
render it as even-length hex, strip an 8-hex-character checksum suffix and a
41 prefix, and left-pad the body to 40 hex characters. An invalid Base58
character yields the zero address. -/
def base58ToEvmHex (addr : String) : String :=
  match base58DecodeNum addr.data 0 with
  | none => ZERO_ADDRESS_HEX
  | some num =>
    let hex0 := natToHexLower num
    let hex := if jsLength hex0 % 2 ≠ 0 then "0" ++ hex0 else hex0
    let withoutChecksum := jsSliceDropLast hex 8
    let body :=
      if jsStartsWith withoutChecksum "41" then jsSliceFrom withoutChecksum 2
      else withoutChecksum
    "0x" ++ jsPadStart body 40 '0'

/-- Embedding of toEvmHex from address.ts. The null/undefined guard of the
TypeScript signature collapses to the empty-string case, the only falsy
String value. -/
def toEvmHex (addr : String) : String :=
  if addr = "" then ZERO_ADDRESS_HEX
  else if jsStartsWith addr "0x" then addr
  else if jsStartsWith addr "T" && isTZeroPlaceholder addr then ZERO_ADDRESS_HEX
  else if isAllHex addr then
    if jsStartsWith addr "41" && jsLength addr = 42 then "0x" ++ jsSliceFrom addr 2
    else "0x" ++ jsPadStart (jsSliceLast addr 40) 40 '0'
  else if jsStartsWith addr "T" then base58ToEvmHex addr
  else ZERO_ADDRESS_HEX

/-- Value of one hexadecimal character, none for anything else. -/
def hexDigitValue (c : Char) : Option Nat :=
  if '0' ≤ c && c ≤ '9' then some (c.toNat - 48)
  else if 'a' ≤ c && c ≤ 'f' then some (c.toNat - 87)
  else if 'A' ≤ c && c ≤ 'F' then some (c.toNat - 55)
  else none

/-- Parsing of a hex string into a number, as BigInt with a 0x prefix does;
none models the SyntaxError BigInt throws on a non-hex character. -/
def parseHexNat : List Char → Nat → Option Nat
  | [], acc => some acc
  | c :: cs, acc =>
    match hexDigitValue c with
    | none => none
    | some v => parseHexNat cs (acc * 16 + v)

/-- The while loop of toBase58: peel Base58 digits from the low end, prepending
each to the result. The fuel argument only bounds the recursion; it is set to
the number itself, which the loop never exhausts since the number shrinks by a
factor of 58 each step. -/
def base58EncodeLoop : Nat → Nat → List Char → List Char
  | 0, _, acc => acc
  | fuel + 1, n, acc =>
    if n = 0 then acc
    else base58EncodeLoop fuel (n / 58) (BASE58_ALPHABET.getD (n % 58) '1' :: acc)

/-- Embedding of toBase58 from address.ts: prepend the 41 TRON prefix to the
hex payload and Base58-encode the resulting number. No Base58Check checksum is
computed (the source comments it as a placeholder implementation). The none
result models the exception BigInt raises when the 0x string is not valid
hex. -/
def toBase58 (addr : String) : Option String :=
  if !jsStartsWith addr "0x" then some addr
  else
    let hexWithPrefix := "41" ++ jsSliceFrom addr 2
    match parseHexNat hexWithPrefix.data 0 with
    | none => none
    | some num =>
      let result := String.mk (base58EncodeLoop num num [])
      some (if result = "" then "T" else result)

/- Section 3: SHA-256 over byte lists (each byte a Nat below 256), used only to
state Base58Check validity of a TRON address, the validity notion quantified
over by the round-trip claim. It is a standard-conformant implementation, not
part of the repository. -/

/-- Two to the thirty-second power, the modulus of 32-bit words. -/
def M32 : Nat := 4294967296

/-- Right rotation of a 32-bit word. -/
def rotr (x n : Nat) : Nat := ((x >>> n) ||| (x <<< (32 - n))) % M32

/-- The 64 SHA-256 round constants, written in decimal. -/
def shaK : List Nat :=
  [1116352408, 1899447441, 3049323471, 3921009573, 961987163, 1508970993, 2453635748, 2870763221,
   3624381080, 310598401, 607225278, 1426881987, 1925078388, 2162078206, 2614888103, 3248222580,
   3835390401, 4022224774, 264347078, 604807628, 770255983, 1249150122, 1555081692, 1996064986,
   2554220882, 2821834349, 2952996808, 3210313671, 3336571891, 3584528711, 113926993, 338241895,
   666307205, 773529912, 1294757372, 1396182291, 1695183700, 1986661051, 2177026350, 2456956037,
   2730485921, 2820302411, 3259730800, 3345764771, 3516065817, 3600352804, 4094571909, 275423344,
   430227734, 506948616, 659060556, 883997877, 958139571, 1322822218, 1537002063, 1747873779,
   1955562222, 2024104815, 2227730452, 2361852424, 2428436474, 2756734187, 3204031479, 3329325298]

/-- The SHA-256 initial hash state, written in decimal. -/
def shaH0 : List Nat :=
  [1779033703, 3144134277, 1013904242, 2773480762, 1359893119, 2600822924, 528734635, 1541459225]

/-- SHA-256 padding: append 0x80, zero bytes, and the 64-bit big-endian bit
length, reaching a multiple of 64 bytes. -/
def shaPad (msg : List Nat) : List Nat :=
  let L := msg.length
  let padZeros := (55 + 64 - L % 64) % 64
  msg ++ [0x80] ++ List.replicate padZeros 0 ++
    (List.range 8).map (fun i => ((8 * L) >>> (8 * (7 - i))) % 256)

/-- Big-endian 32-bit words from bytes. -/
def shaWords : List Nat → List Nat
  | a :: b :: c :: d :: rest => (((a * 256 + b) * 256 + c) * 256 + d) :: shaWords rest
  | _ => []

/-- Message-schedule extension: 48 steps, each appending one word derived from
the words 2, 7, 15 and 16 positions back. -/
def shaExtend : Nat → List Nat → List Nat
  | 0, w => w
  | fuel + 1, w =>
    let t := w.length
    let w15 := w.getD (t - 15) 0
    let w2 := w.getD (t - 2) 0
    let s0 := (rotr w15 7) ^^^ (rotr w15 18) ^^^ (w15 >>> 3)
    let s1 := (rotr w2 17) ^^^ (rotr w2 19) ^^^ (w2 >>> 10)
    shaExtend fuel (w ++ [(w.getD (t - 16) 0 + s0 + w.getD (t - 7) 0 + s1) % M32])

/-- One SHA-256 compression round on the eight-word working state. -/
def shaRound (st : List Nat) (k w : Nat) : List Nat :=
  match st with
  | [a, b, c, d, e, f, g, h] =>
    let S1 := (rotr e 6) ^^^ (rotr e 11) ^^^ (rotr e 25)
    let ch := (e &&& f) ^^^ ((e ^^^ (M32 - 1)) &&& g)
    let t1 := (h + S1 + ch + k + w) % M32
    let S0 := (rotr a 2) ^^^ (rotr a 13) ^^^ (rotr a 22)
    let mj := (a &&& b) ^^^ (a &&& c) ^^^ (b &&& c)
    let t2 := (S0 + mj) % M32
    [(t1 + t2) % M32, a, b, c, ((d + t1) % M32), e, f, g]
  | other => other

/-- Compression of one 64-byte block into the hash state. -/
def shaCompress (h : List Nat) (block : List Nat) : List Nat :=
  let w := shaExtend 48 (shaWords block)
  let st := List.foldl (fun st (kw : Nat × Nat) => shaRound st kw.1 kw.2) h (shaK.zip w)
  (h.zip st).map (fun p => (p.1 + p.2) % M32)

/-- SHA-256 of a byte list, as 32 bytes. -/
def sha256 (msg : List Nat) : List Nat :=
  let blocks := List.toChunks 64 (shaPad msg)
  let hf := List.foldl shaCompress shaH0 blocks
  hf.flatMap (fun w => (List.range 4).map (fun i => (w >>> (8 * (3 - i))) % 256))

/-- Big-endian byte rendering of a number into a fixed width. -/
def natToBytesBE (len n : Nat) : List Nat :=
  (List.range len).map (fun i => (n >>> (8 * (len - 1 - i))) % 256)

/-- Base58Check validity of a TRON address, the validity notion of the
round-trip claim: 34 characters, T prefix, valid Base58, decoding to 25 bytes
whose first byte is 0x41 and whose last 4 bytes are the leading 4 bytes of the
double SHA-256 of the first 21. -/
def tronBase58CheckValid (addr : String) : Bool :=
  jsLength addr = 34 && jsStartsWith addr "T" &&
    match base58DecodeNum addr.data 0 with
    | none => false
    | some num =>
      decide (num < 2 ^ 200) &&
        (let bytes := natToBytesBE 25 num
         bytes.take 1 = [0x41] &&
           decide (bytes.drop 21 = (sha256 (sha256 (bytes.take 21))).take 4))

/- Sanity anchors for the address embedding, matching an execution of the
TypeScript code. -/

example : toEvmHex "TR7NHqjeKQxGTCi8q8ZY4pL8otSzgjLj6t"
    = "0xa614f803b6fd780986a42c78ec9c7f77e6ded13c" := by decide

example : toBase58 "0xa614f803b6fd780986a42c78ec9c7f77e6ded13c"
    = some "538wmA1ifr6Khoeq2t5MyHZ82pExj" := by decide

example : tronBase58CheckValid "TR7NHqjeKQxGTCi8q8ZY4pL8otSzgjLj6t" = true := by decide

example : toEvmHex "TTTTTTTTTT" = "0x0000000000000000000000000000000002ba223d" := by decide

/- Section 4: TokenRegistry, embedded from
src/typescript/packages/x402/src/tokens.ts. -/

/-- Token metadata (TokenInfo in tokens.ts). -/
structure TokenInfo where
  address : String
  decimals : Nat
  name : String
  symbol : String
deriving DecidableEq, Repr

/-- The static TOKENS table of tokens.ts: per network, symbol-keyed token
records in declaration order (JavaScript object-key insertion order, which is
what Object.values enumerates). -/
def TOKENS : List (String × List (String × TokenInfo)) :=
  [("eip155:97",
    [("USDT", ⟨"0x337610d27c682E347C9cD60BD4b3b107C9d34dDd", 18, "Tether USD", "USDT"⟩),
     ("USDC", ⟨"0x64544969ed7EBf5f083679233325356EbE738930", 18, "USD Coin", "USDC"⟩),
     ("DHLU", ⟨"0x375cADdd2cB68cE82e3D9B075D551067a7b4B816", 6, "DA HULU", "DHLU"⟩)]),
   ("eip155:56",
    [("USDC", ⟨"0x8AC76a51cc950d9822D68b83fE1Ad97B32Cd580d", 18, "USD Coin", "USDC"⟩),
     ("USDT", ⟨"0x55d398326f99059fF775485246999027B3197955", 18, "Tether USD", "USDT"⟩),
     ("EPS", ⟨"0xA7f552078dcC247C2684336020c03648500C6d9F", 18, "Ellipsis", "EPS"⟩)]),
   ("tron:mainnet",
    [("USDT", ⟨"TR7NHqjeKQxGTCi8q8ZY4pL8otSzgjLj6t", 6, "Tether USD", "USDT"⟩),
     ("USDD", ⟨"TXDk8mbtRbXeYuMNS83CfKPaYYT8XWv9Hz", 18, "Decentralized USD", "USDD"⟩)]),
   ("tron:shasta",
    [("USDT", ⟨"TG3XXyExBkPp9nzdajDZsozEu4BkaSJozs", 6, "Tether USD", "USDT"⟩)]),
   ("tron:nile",
    [("USDT", ⟨"TXYZopYRdj2D9XRtbG411XZZ3kM5VkAeBf", 6, "Tether USD", "USDT"⟩),
     ("USDD", ⟨"TGjgvdTWWrybVLaVeFqSyVqJQWjxqRYbaK", 18, "Decentralized USD", "USDD"⟩)])]

/-- Embedding of findByAddress from tokens.ts: look the network up in TOKENS,
then find the first token whose address equals the given one
case-insensitively. -/
def findByAddress (network address : String) : Option TokenInfo :=
  match TOKENS.lookup network with
  | none => none
  | some tokens =>
    (tokens.map Prod.snd).find? (fun t => jsToLowerCase t.address == jsToLowerCase address)

/- Section 5: token selection, embedded from
src/typescript/packages/x402/src/client/tokenSelection.ts. -/

/-- Server-issued payment offer (PaymentRequirements in types/index.ts),
restricted to the fields the embedded functions read. The TypeScript amount
and fee fields are decimal strings consumed through BigInt; they are modelled
by their numeric values. extraFeeAmount models extra?.fee?.feeAmount, with
none for an absent extra or fee. -/
structure PaymentRequirements where
  scheme : String
  network : String
  amount : Nat
  asset : String
  payTo : String
  extraFeeAmount : Option Nat
deriving DecidableEq, Repr

/-- Embedding of getDecimals from tokenSelection.ts: registry decimals with a
default of 6. -/
def getDecimals (req : PaymentRequirements) : Nat :=
  match findByAddress req.network req.asset with
  | some token => token.decimals
  | none => 6

/-- Embedding of normalizedCost from tokenSelection.ts: amount divided by ten
to the decimals. The JavaScript floating-point division is modelled by exact
rational division. -/
def normalizedCost (req : PaymentRequirements) : ℚ :=
  mkRat req.amount (10 ^ getDecimals req)

/-- Normalized cost as the specification words it, fee included: the quantity
(amount + fee) / 10 ^ decimals, with a missing fee read as zero. Stated only to
compare the specified selection objective with the implemented one. -/
def specNormalizedCost (req : PaymentRequirements) : ℚ :=
  mkRat (req.amount + req.extraFeeAmount.getD 0) (10 ^ getDecimals req)

/-- Embedding of DefaultTokenSelectionStrategy.select from tokenSelection.ts:
scan left to right keeping the candidate of strictly smaller normalized cost;
none models the exception thrown on an empty list. -/
def defaultSelect (accepts : List PaymentRequirements) : Option PaymentRequirements :=
  match accepts with
  | [] => none
  | a :: rest =>
    some (rest.foldl (fun best r => if normalizedCost r < normalizedCost best then r else best) a)

/- Section 6: mechanism registry, embedded from
src/typescript/packages/x402/src/client/x402Client.ts. Mechanism objects are
opaque to the registry; they are modelled by Nat identifiers. -/

/-- Registered mechanism entry (MechanismEntry in x402Client.ts). -/
structure MechanismEntry where
  pattern : String
  mechanism : Nat
  priority : Nat
deriving DecidableEq, Repr

/-- Embedding of X402Client.matchPattern: exact equality, or a pattern ending
in a colon-star wildcard whose prefix (colon included) starts the network. -/
def matchPattern (pattern network : String) : Bool :=
  if pattern == network then true
  else if jsEndsWith pattern ":*" then
    jsStartsWith network (jsSliceDropLast pattern 1)
  else false

/-- Embedding of X402Client.calculatePriority: wildcard patterns get 1, exact
patterns 10. -/
def calculatePriority (pattern : String) : Nat :=
  if jsEndsWith pattern ":*" then 1 else 10

/-- Stable insertion into a list sorted by descending priority: the new entry
goes after every strictly higher-priority entry and before the first entry of
lower or equal priority. -/
def insertDescPriority (e : MechanismEntry) : List MechanismEntry → List MechanismEntry
  | [] => [e]
  | x :: xs =>
    if e.priority < x.priority then x :: insertDescPriority e xs
    else e :: x :: xs

/-- Stable sort by descending priority, modelling the JavaScript stable
Array.sort with comparator b.priority - a.priority that register performs. -/
def sortDescPriority : List MechanismEntry → List MechanismEntry
  | [] => []
  | e :: rest => insertDescPriority e (sortDescPriority rest)

/-- Embedding of X402Client.register: append the new entry with its computed
priority, then re-sort the list by descending priority (stably). -/
def register (ms : List MechanismEntry) (pattern : String) (mech : Nat) :
    List MechanismEntry :=
  sortDescPriority (ms ++ [⟨pattern, mech, calculatePriority pattern⟩])

/-- Registry state after a sequence of register calls starting from the empty
client. -/
def registerAll (regs : List (String × Nat)) : List MechanismEntry :=
  regs.foldl (fun ms pm => register ms pm.1 pm.2) []

/-- Embedding of X402Client.findMechanism: first entry whose pattern matches
the network, in registry order. -/
def findMechanismEntry (ms : List MechanismEntry) (network : String) :
    Option MechanismEntry :=
  ms.find? (fun e => matchPattern e.pattern network)

/- Section 7: GasFree API client, embedded from
src/typescript/packages/x402/src/utils/gasfree.ts. -/

/-- Off-chain transfer state (the state union of GasFreeSubmitResponseData).
The TypeScript values are uppercase string literals, so the defensive
toUpperCase calls in waitForSuccess are identities on them. -/
inductive GFState where
  | WAITING
  | INPROGRESS
  | CONFIRMING
  | SUCCEED
  | FAILED
deriving DecidableEq, Repr

/-- On-chain transaction state (the txnState union of
GasFreeSubmitResponseData). -/
inductive TxnState where
  | INIT
  | NOT_ON_CHAIN
  | ON_CHAIN
  | SOLIDITY
  | ON_CHAIN_FAILED
deriving DecidableEq, Repr

/-- Status record returned by the status endpoint
(GasFreeSubmitResponseData), restricted to the fields waitForSuccess reads;
txnState and reason are optional fields. -/
structure GasFreeSubmitResponseData where
  id : String
  state : GFState
  txnState : Option TxnState
  reason : Option String
deriving DecidableEq, Repr

/-- Outcome of a waitForSuccess run: the returned status, a raised failure, or
a raised timeout error. -/
inductive WaitOutcome where
  | success (s : GasFreeSubmitResponseData)
  | failure (s : GasFreeSubmitResponseData)
  | timeoutErr
deriving DecidableEq, Repr

/-- Default timeout of waitForSuccess, in milliseconds. -/
def WAIT_DEFAULT_TIMEOUT : Nat := 180000

/-- Default poll interval of waitForSuccess, in milliseconds. -/
def WAIT_DEFAULT_POLL_INTERVAL : Nat := 5000

/-- The polling loop of waitForSuccess. Wall-clock time is abstracted into the
list argument: it carries the statuses getStatus returns at the successive poll
instants that fall inside the timeout budget, so exhausting the list is the
loop condition turning false. The second argument is the statusData variable,
holding the last observed status. On SUCCEED the status is returned at once;
on FAILED, or an ON_CHAIN_FAILED txnState, an error is raised at once. When
the budget is exhausted the last observed status is returned exactly when it
is CONFIRMING with txnState ON_CHAIN; otherwise a timeout error is raised. -/
def waitLoop : List GasFreeSubmitResponseData → Option GasFreeSubmitResponseData → WaitOutcome
  | [], none => WaitOutcome.timeoutErr
  | [], some last =>
    if last.state = GFState.CONFIRMING ∧ last.txnState = some TxnState.ON_CHAIN then
      WaitOutcome.success last
    else WaitOutcome.timeoutErr
  | s :: rest, _ =>
    if s.state = GFState.SUCCEED then WaitOutcome.success s
    else if s.state = GFState.FAILED ∨ s.txnState = some TxnState.ON_CHAIN_FAILED then
      WaitOutcome.failure s
    else waitLoop rest (some s)

/-- Embedding of GasFreeAPIClient.waitForSuccess: run the polling loop with no
status observed yet. -/
def waitForSuccess (polls : List GasFreeSubmitResponseData) : WaitOutcome :=
  waitLoop polls none

/-- Envelope of every GasFree API response (GasFreeResponse in gasfree.ts). -/
structure GasFreeResponse (α : Type) where
  code : Nat
  reason : Option String
  message : Option String
  data : α
deriving DecidableEq, Repr

/-- Per-token account entry of the address-info response (GasFreeAsset in
gasfree.ts). transferFee is a number; balance is an optional field read
through a falsy-or with zero. -/
structure GasFreeAsset where
  tokenAddress : String
  tokenSymbol : String
  activateFee : Nat
  transferFee : Nat
  decimal : Nat
  frozen : Nat
  balance : Option Nat
deriving DecidableEq, Repr

/-- Address-info response payload (GasFreeAddressInfo in gasfree.ts). The
nonce is declared a number but read defensively with a null-coalescing
default in getNonce, so it is modelled as possibly absent. -/
structure GasFreeAddressInfo where
  accountAddress : String
  gasFreeAddress : String
  active : Bool
  nonce : Option Nat
  allowSubmit : Bool
  assets : List GasFreeAsset
deriving DecidableEq, Repr

/-- Outcome of one HTTP GET against the API, the environment a request-making
function runs in: the fetch itself can throw, the response can carry a non-ok
HTTP status, or a JSON envelope is obtained. -/
inductive FetchOutcome (α : Type) where
  | netError (message : String)
  | httpNotOk (status : Nat) (body : String)
  | got (resp : GasFreeResponse α)
deriving DecidableEq, Repr

/-- JavaScript template rendering of the message-or-reason expression used in
error strings: message wins when truthy, else reason, with null rendered as
the word null. -/
def jsMessageOrReason (message reason : Option String) : String :=
  match message with
  | some m => if m ≠ "" then m else match reason with | some r => r | none => "null"
  | none => match reason with | some r => r | none => "null"

/-- Embedding of GasFreeAPIClient.getAddressInfo: a network error propagates,
a non-ok HTTP status or an envelope code other than 200 raises, otherwise the
data field is returned. -/
def getAddressInfo (env : FetchOutcome GasFreeAddressInfo) :
    Except String GasFreeAddressInfo :=
  match env with
  | FetchOutcome.netError m => Except.error m
  | FetchOutcome.httpNotOk status body =>
    Except.error ("GasFree API HTTP error: " ++ toString status ++ " - Body: " ++ body)
  | FetchOutcome.got resp =>
    if resp.code ≠ 200 then
      Except.error ("GasFree API error: " ++ jsMessageOrReason resp.message resp.reason)
    else Except.ok resp.data

/-- Embedding of GasFreeAPIClient.getNonce: call getAddressInfo, return its
nonce with a null-coalescing default of 0, and turn every thrown error into a
logged warning and the value 0. The Except result type records that the
function itself can no longer throw. -/
def getNonce (env : FetchOutcome GasFreeAddressInfo) : Except String Nat :=
  match getAddressInfo env with
  | Except.ok data => Except.ok (data.nonce.getD 0)
  | Except.error _ => Except.ok 0

/- Section 8: network configuration, embedded from
src/typescript/packages/x402/src/config.ts. -/

/-- Chain IDs for supported networks (CHAIN_IDS in config.ts). -/
def CHAIN_IDS : List (String × Nat) :=
  [("tron:mainnet", 728126428),
   ("tron:shasta", 2494104990),
   ("tron:nile", 3448148188),
   ("eip155:1", 1),
   ("eip155:11155111", 11155111),
   ("eip155:56", 56),
   ("eip155:97", 97)]

/-- JavaScript parseInt(s, 10) on the second colon-separated segment of a
network id: optional sign followed by leading decimal digits; none models
NaN. -/
def jsParseInt10 (s : String) : Option Int :=
  let core := fun (l : List Char) =>
    let digits := l.takeWhile (fun c => '0' ≤ c && c ≤ '9')
    if digits.isEmpty then none
    else some ((digits.foldl (fun acc c => acc * 10 + (c.toNat - 48)) 0 : Nat) : Int)
  match s.data with
  | '-' :: rest => (core rest).map (fun n => -n)
  | '+' :: rest => core rest
  | l => core l

/-- Second segment of a colon-separated string (network.split(..)[1]): the
characters after the first colon and before the next. -/
def splitSecondSegment (s : String) : String :=
  String.mk (((s.data.dropWhile (fun c => c ≠ ':')).drop 1).takeWhile (fun c => c ≠ ':'))

/-- Embedding of getChainId from config.ts: an eip155 network carries its
chain id in the identifier (rejecting a NaN parse); other networks are looked
up in CHAIN_IDS, unknown ones raising an unsupported-network error. -/
def getChainId (network : String) : Except String Int :=
  if jsStartsWith network "eip155:" then
    match jsParseInt10 (splitSecondSegment network) with
    | none => Except.error ("Invalid EVM network: " ++ network)
    | some id => Except.ok id
  else
    match CHAIN_IDS.lookup network with
    | none => Except.error ("Unsupported network: " ++ network)
    | some chainId => Except.ok (chainId : Int)

/-- PaymentPermit contract addresses (PAYMENT_PERMIT_ADDRESSES in
config.ts). -/
def PAYMENT_PERMIT_ADDRESSES : List (String × String) :=
  [("tron:mainnet", "TT8rEWbCoNX7vpEUauxb7rWJsTgs8vDLAn"),
   ("tron:shasta", "TR2XninQ3jsvRRLGTifFyUHTBysffooUjt"),
   ("tron:nile", "TFxDcGvS7zfQrS1YzcCMp673ta2NHHzsiH"),
   ("eip155:97", "0x1825bB32db3443dEc2cc7508b2D818fc13EaD878"),
   ("eip155:56", "0x1825bB32db3443dEc2cc7508b2D818fc13EaD878")]

/-- Zero address for EVM networks (EVM_ZERO_ADDRESS in config.ts). -/
def EVM_ZERO_ADDRESS : String := "0x0000000000000000000000000000000000000000"

/-- Zero address for TRON networks (TRON_ZERO_ADDRESS in config.ts). -/
def TRON_ZERO_ADDRESS : String := "T9yD14Nj9j7xAB4dbGeiX9h8unkKHxuWwb"

/-- Embedding of getPaymentPermitAddress from config.ts: table lookup with the
EVM zero address as fallback for eip155 networks and the TRON zero address
otherwise. -/
def getPaymentPermitAddress (network : String) : String :=
  match PAYMENT_PERMIT_ADDRESSES.lookup network with
  | some addr => addr
  | none => if jsStartsWith network "eip155:" then EVM_ZERO_ADDRESS else TRON_ZERO_ADDRESS

/- Section 9: GasFree client mechanism, embedded from
src/typescript/packages/x402/src/mechanisms/gasfree.ts. -/

/-- Permit metadata of the assembled PaymentPermit (meta in the PaymentPermit
the mechanism builds). -/
structure PaymentPermitMeta where
  kind : String
  paymentId : String
  nonce : Nat
  validAfter : Nat
  validBefore : Nat
deriving DecidableEq, Repr

/-- Payment leg of a PaymentPermit. -/
structure PaymentInfo where
  payToken : String
  payAmount : Nat
  payTo : String
deriving DecidableEq, Repr

/-- Fee leg of a PaymentPermit. -/
structure FeeInfo where
  feeTo : String
  feeAmount : Nat
deriving DecidableEq, Repr

/-- Delivery leg of a PaymentPermit. -/
structure DeliveryInfo where
  receiveToken : String
  miniReceiveAmount : Nat
  tokenId : Nat
deriving DecidableEq, Repr

/-- The PaymentPermit value object assembled by the mechanism. -/
structure PaymentPermit where
  meta : PaymentPermitMeta
  buyer : String
  caller : String
  payment : PaymentInfo
  fee : FeeInfo
  delivery : DeliveryInfo
deriving DecidableEq, Repr

/-- The wire PaymentPayload the mechanism returns, with the payload and
extensions sub-objects flattened into the fields the claims read (signature,
paymentPermit, and the gasfreeAddress and scheme entries of extensions). -/
structure PaymentPayload where
  x402Version : Nat
  resourceUrl : String
  accepted : PaymentRequirements
  signature : String
  paymentPermit : PaymentPermit
  extGasfreeAddress : String
  extScheme : String
deriving DecidableEq, Repr

/-- Caller-provided extensions, flattened: the meta fields of
extensions.paymentPermitContext (each possibly absent) and the
skipBalanceCheck flag, whose falsy-or-false read makes it a plain Bool. -/
structure MechExtensions where
  metaPaymentId : Option String
  metaValidAfter : Option Nat
  metaValidBefore : Option Nat
  skipBalanceCheck : Bool
deriving DecidableEq, Repr

/-- Environment of one createPaymentPayload run: the signer address, the
outcome the address-info fetch will have, the signature the signer returns,
the current time in seconds, and the verifying-contract address the GasFree
SDK puts in the TIP-712 domain. The API base-url resolution and client
construction are absorbed into the fetch outcome. -/
structure MechEnv where
  signerAddress : String
  addressInfo : FetchOutcome GasFreeAddressInfo
  signature : String
  nowSeconds : Nat
  verifyingContract : String

/-- Observable effects of a createPaymentPayload run, in order: the
address-info fetch and the signTypedData call with the maxFee, nonce and
deadline of the message it signs. -/
inductive MechEvent where
  | fetchAddressInfo (user : String)
  | signTypedData (token : String) (maxFee : Nat) (nonce : Nat) (deadline : Nat)
deriving DecidableEq, Repr

/-- Whether a trace contains a signTypedData call. -/
def hasSignEvent (events : List MechEvent) : Bool :=
  events.any fun e =>
    match e with
    | MechEvent.signTypedData _ _ _ _ => true
    | _ => false

/-- The fee resolved from the requirements in createPaymentPayload before the
transfer-fee floor: extra.fee.feeAmount when present (the string is truthy even
when it denotes zero), else the 100000 default. -/
def resolveRequirementsFee (req : PaymentRequirements) : Nat :=
  jsOrStrNum req.extraFeeAmount 100000

/-- Tail of createPaymentPayload once every precondition has passed: compute
the deadline (context validBefore when truthy, else one hour from now), invoke
signTypedData, and assemble the PaymentPermit and PaymentPayload exactly as
the source maps the GasFree parameters into them. -/
def buildSignedPayload (req : PaymentRequirements) (resource : String)
    (ext : MechExtensions) (env : MechEnv) (gasfreeAddress : String)
    (nonce maxFee : Nat) : List MechEvent × Except String PaymentPayload :=
  let deadline := jsOrNum ext.metaValidBefore (env.nowSeconds + 3600)
  let permit : PaymentPermit :=
    { meta :=
        { kind := "PAYMENT_ONLY"
          paymentId := ext.metaPaymentId.getD ""
          nonce := nonce
          validAfter := jsOrNum ext.metaValidAfter 0
          validBefore := deadline }
      buyer := env.signerAddress
      caller := env.verifyingContract
      payment := { payToken := req.asset, payAmount := req.amount, payTo := req.payTo }
      fee := { feeTo := req.payTo, feeAmount := maxFee }
      delivery :=
        { receiveToken := "T9yD14Nj9j7xAB4dbGeiX9h8unkKHxuWwb"
          miniReceiveAmount := 0
          tokenId := 0 } }
  ([MechEvent.fetchAddressInfo env.signerAddress,
    MechEvent.signTypedData req.asset maxFee nonce deadline],
   Except.ok
     { x402Version := 2
       resourceUrl := resource
       accepted := req
       signature := env.signature
       paymentPermit := permit
       extGasfreeAddress := gasfreeAddress
       extScheme := "gasfree_exact" })

/-- Embedding of GasFreeTronClientMechanism.createPaymentPayload: resolve the
chain id, fetch the account info, fail when the GasFree address is absent or
the account inactive, resolve the fee and raise it to the protocol transfer
fee of the matching asset, check balance (or fail on a missing asset) unless
skipBalanceCheck is set, then sign and assemble the payload. The first
component is the trace of observable effects up to the return or throw. -/
def createPaymentPayload (req : PaymentRequirements) (resource : String)
    (ext : MechExtensions) (env : MechEnv) :
    List MechEvent × Except String PaymentPayload :=
  match getChainId req.network with
  | Except.error e => ([], Except.error e)
  | Except.ok _chainId =>
    let fetched := [MechEvent.fetchAddressInfo env.signerAddress]
    match getAddressInfo env.addressInfo with
    | Except.error e => (fetched, Except.error e)
    | Except.ok accountInfo =>
      if accountInfo.gasFreeAddress = "" then
        (fetched,
         Except.error ("Could not retrieve GasFree address for " ++ env.signerAddress))
      else if accountInfo.active = false then
        (fetched,
         Except.error ("GasFree account for " ++ env.signerAddress ++
           " is not activated. Please activate your GasFree wallet before making payments."))
      else
        let maxFee0 := resolveRequirementsFee req
        let asset := accountInfo.assets.find? (fun a => a.tokenAddress == req.asset)
        let transferFee :=
          match asset with
          | some a => a.transferFee
          | none => 0
        let maxFee := if maxFee0 < transferFee then transferFee else maxFee0
        if ext.skipBalanceCheck = false then
          match asset with
          | some a =>
            if a.balance.getD 0 < req.amount + maxFee then
              (fetched,
               Except.error ("Insufficient balance in GasFree wallet " ++
                 accountInfo.gasFreeAddress ++ ". Please top up."))
            else
              buildSignedPayload req resource ext env accountInfo.gasFreeAddress
                (accountInfo.nonce.getD 0) maxFee
          | none =>
            (fetched,
             Except.error ("Asset " ++ req.asset ++ " not found in GasFree account " ++
               accountInfo.gasFreeAddress ++ ". Please top up."))
        else
          buildSignedPayload req resource ext env accountInfo.gasFreeAddress
            (accountInfo.nonce.getD 0) maxFee

/- Section 10: TRON client signer, embedded from
src/typescript/packages/x402/src/signers/signer.ts (ensureAllowance and the
pieces of checkAllowance it relies on). -/

/-- Allowance-handling mode of ensureAllowance. -/
inductive AllowanceMode where
  | auto
  | interactive
  | skip
deriving DecidableEq, Repr

/-- Confirmed-transaction info as read by the polling loop: the block number
(absent until mined, and falsy when 0) and the receipt result string. -/
structure TxInfo where
  blockNumber : Option Nat
  receiptResult : Option String
deriving DecidableEq, Repr

/-- Outcome of one getTransactionInfo call: a thrown error (caught by the
loop), or a possibly-empty info object. -/
inductive PollOutcome where
  | threw (message : String)
  | got (info : Option TxInfo)
deriving Repr

/-- Observable effects of an ensureAllowance run, in order. -/
inductive SignerEvent where
  | checkAllowanceQuery
  | buildApprove (spender : String) (value : Nat)
  | signTx
  | broadcastTx
  | sleep (ms : Nat)
  | pollInfo (i : Nat)
deriving DecidableEq, Repr

/-- Environment of one ensureAllowance run: the allowance the chain reports
(checkAllowance already maps its own RPC failures to zero), whether building
and broadcasting the approve transaction succeed, and the outcome of each
successive confirmation poll. -/
structure EnsureEnv where
  allowance : Nat
  buildOk : Bool
  broadcastOk : Bool
  polls : Nat → PollOutcome

/-- JavaScript truthiness of an optional number. -/
def jsTruthyOptNat (o : Option Nat) : Bool :=
  match o with
  | some n => n ≠ 0
  | none => false

/-- Network resolution shared by checkAllowance and ensureAllowance: the
network argument when non-empty, else tron: prefixed onto the signer's stored
network, else unresolvable. -/
def resolveNetwork (network : String) (thisNetwork : Option String) : Option String :=
  if network ≠ "" then some network
  else
    match thisNetwork with
    | some n => some ("tron:" ++ n)
    | none => none

/-- The confirmation polling loop of ensureAllowance: up to the given number
of rounds, each sleeping 3000 milliseconds and querying the transaction info;
a thrown query or an info without a truthy block number continues; a mined
info returns whether the receipt result is SUCCESS; an exhausted window
assumes success and returns true. -/
def pollConfirm (env : EnsureEnv) (events : List SignerEvent) (i : Nat) :
    Nat → List SignerEvent × Except String Bool
  | 0 => (events, Except.ok true)
  | fuel + 1 =>
    let events1 := events ++ [SignerEvent.sleep 3000, SignerEvent.pollInfo i]
    match env.polls i with
    | PollOutcome.threw _ => pollConfirm env events1 (i + 1) fuel
    | PollOutcome.got none => pollConfirm env events1 (i + 1) fuel
    | PollOutcome.got (some info) =>
      if jsTruthyOptNat info.blockNumber then
        (events1, Except.ok (info.receiptResult == some "SUCCESS"))
      else pollConfirm env events1 (i + 1) fuel

/-- Embedding of TronClientSigner.ensureAllowance: skip returns true at once;
otherwise the current allowance is queried and a covering allowance returns
true; interactive mode then fails fast with an insufficient-allowance error;
auto mode builds, signs and broadcasts an unlimited (2 to the 160th minus one)
approve transaction and runs the 10-round confirmation loop. -/
def ensureAllowance (token : String) (amount : Nat) (network : String)
    (mode : AllowanceMode) (thisNetwork : Option String) (env : EnsureEnv) :
    List SignerEvent × Except String Bool :=
  match mode with
  | AllowanceMode.skip => ([], Except.ok true)
  | _ =>
    match resolveNetwork network thisNetwork with
    | none => ([], Except.error "network is required for checkAllowance")
    | some resolved =>
      let events0 := [SignerEvent.checkAllowanceQuery]
      if amount ≤ env.allowance then (events0, Except.ok true)
      else
        match mode with
        | AllowanceMode.interactive =>
          (events0, Except.error "Interactive approval not implemented - use wallet UI")
        | _ =>
          let spenderHex := toEvmHex (getPaymentPermitAddress resolved)
          let maxUint160 := 2 ^ 160 - 1
          let events1 := events0 ++ [SignerEvent.buildApprove spenderHex maxUint160]
          if env.buildOk = false then
            (events1, Except.error "Failed to build approve transaction")
          else
            let events2 := events1 ++ [SignerEvent.signTx, SignerEvent.broadcastTx]
            if env.broadcastOk = false then
              (events2, Except.error "Failed to broadcast approve transaction")
            else pollConfirm env events2 0 10

/- Section 11: theorems about the address codec (claims C5, C6, C10). -/

/-- A list containing a character outside the Base58 alphabet decodes to none
whatever the accumulator. -/
lemma base58DecodeNum_none_of_bad (l : List Char) (acc : Nat)
    (h : ∃ c ∈ l, base58Index c = none) : base58DecodeNum l acc = none := by
  induction l generalizing acc with
  | nil =>
    rcases h with ⟨c, hc, _⟩
    cases hc
  | cons c cs ih =>
    rcases h with ⟨d, hd, hbad⟩
    rcases List.mem_cons.mp hd with rfl | hdm
    · simp [base58DecodeNum, hbad]
    · cases hidx : base58Index c with
      | none => simp [base58DecodeNum, hidx]
      | some v =>
        simp only [base58DecodeNum, hidx]
        exact ih _ ⟨d, hdm, hbad⟩

/-- A string starting (in the JavaScript sense) with T has T as its first
character. -/
lemma startsWithT_head (s : String) (h : jsStartsWith s "T" = true) :
    ∃ cs, s.data = 'T' :: cs := by
  have hTd : "T".data = ['T'] := by decide
  unfold jsStartsWith at h
  rw [hTd] at h
  cases hdata : s.data with
  | nil =>
    rw [hdata] at h
    exact absurd h (by decide)
  | cons c cs =>
    rw [hdata] at h
    simp [List.isPrefixOf] at h
    exact ⟨cs, by rw [← h]⟩

/-- Claim C10: toEvmHex returns every 0x-prefixed input unchanged, performing
no length or character validation on it, so a malformed 0x string is neither
normalized nor replaced by the zero-address sentinel. -/
theorem toEvmHex_keeps_0x_inputs (s : String) (h : jsStartsWith s "0x" = true) :
    toEvmHex s = s := by
  have hne : s ≠ "" := by
    intro he
    subst he
    exact absurd h (by decide)
  simp [toEvmHex, hne, h]

/-- Witness for C10 at a 0x input of malformed length and characters. -/
theorem toEvmHex_keeps_0x_inputs_witness :
    jsStartsWith "0xZZZZ" "0x" = true ∧ toEvmHex "0xZZZZ" = "0xZZZZ" :=
  ⟨by decide, toEvmHex_keeps_0x_inputs "0xZZZZ" (by decide)⟩

/-- Counterexample to claim C6 as stated: the input of ten capital T letters
is T-prefixed valid Base58 whose decoded value (8 bytes) mismatches the
25-byte checksummed address length, so toEvmHex cannot interpret it as an
address, yet the result is a non-zero best-effort value, not the zero
address. -/
theorem toEvmHex_length_mismatch_not_zero :
    jsStartsWith "TTTTTTTTTT" "T" = true ∧
    "TTTTTTTTTT".data.all (fun c => (base58Index c).isSome) = true ∧
    base58DecodeNum "TTTTTTTTTT".data 0 = some 196507182094465814 ∧
    196507182094465814 < 2 ^ 192 ∧
    toEvmHex "TTTTTTTTTT" = "0x0000000000000000000000000000000002ba223d" ∧
    toEvmHex "TTTTTTTTTT" ≠ ZERO_ADDRESS_HEX :=
  ⟨by decide, by decide, by decide, by decide, by decide, by decide⟩

/-- Claim C6 (amended): toEvmHex never throws (the embedding is a total
function); the empty string, T-prefixed inputs containing a character outside
the Base58 alphabet, and inputs matching no recognized format all yield the
canonical zero address. A decoded length mismatching the checksummed 25-byte
form is not detected: such input yields a zero-padded or over-long best-effort
hex string instead of the zero address. -/
theorem toEvmHex_zero_on_uninterpretable (s : String) :
    (s = "" → toEvmHex s = ZERO_ADDRESS_HEX) ∧
    (jsStartsWith s "T" = true → (∃ c ∈ s.data, base58Index c = none) →
       toEvmHex s = ZERO_ADDRESS_HEX) ∧
    (s ≠ "" → jsStartsWith s "0x" = false → jsStartsWith s "T" = false →
       isAllHex s = false → toEvmHex s = ZERO_ADDRESS_HEX) := by
  refine ⟨fun he => by simp [toEvmHex, he], fun hT hbad => ?_, fun h1 h2 h3 h4 => ?_⟩
  · obtain ⟨cs, hd⟩ := startsWithT_head s hT
    have hne : s ≠ "" := by
      intro he
      have hnil : ("" : String).data = [] := by decide
      rw [he, hnil] at hd
      exact List.noConfusion hd
    have h0x : jsStartsWith s "0x" = false := by
      have h0d : "0x".data = ['0', 'x'] := by decide
      unfold jsStartsWith
      rw [h0d, hd]
      simp [List.isPrefixOf]
    have hhex : isAllHex s = false := by
      unfold isAllHex
      rw [hd]
      simp [isHexDigitChar]
    cases hplace : isTZeroPlaceholder s with
    | true => simp [toEvmHex, hne, h0x, hT, hplace]
    | false =>
      have hdec : base58DecodeNum s.data 0 = none := base58DecodeNum_none_of_bad _ _ hbad
      simp [toEvmHex, hne, h0x, hT, hplace, hhex, base58ToEvmHex, hdec]
  · simp [toEvmHex, h1, h2, h3, h4]

/-- Witness for the amended C6 at concrete uninterpretable inputs: an invalid
Base58 character after the T prefix, and an unrecognized format. -/
theorem toEvmHex_zero_on_uninterpretable_witness :
    toEvmHex "T0O0O" = ZERO_ADDRESS_HEX ∧ toEvmHex "hello world" = ZERO_ADDRESS_HEX :=
  ⟨(toEvmHex_zero_on_uninterpretable "T0O0O").2.1 (by decide)
     ⟨'0', by decide, by decide⟩,
   (toEvmHex_zero_on_uninterpretable "hello world").2.2 (by decide) (by decide)
     (by decide) (by decide)⟩

/-- Claim C5 (the code contradicts the spec): at the genuinely
Base58Check-valid TRON
mainnet USDT address, converting to canonical hex and back does not restore
the original address: toBase58 omits the Base58Check checksum that toEvmHex
strips, so the round trip yields a 29-character checksum-less encoding. -/
theorem tron_roundtrip_fails_on_valid_address :
    tronBase58CheckValid "TR7NHqjeKQxGTCi8q8ZY4pL8otSzgjLj6t" = true ∧
    toEvmHex "TR7NHqjeKQxGTCi8q8ZY4pL8otSzgjLj6t"
      = "0xa614f803b6fd780986a42c78ec9c7f77e6ded13c" ∧
    toBase58 (toEvmHex "TR7NHqjeKQxGTCi8q8ZY4pL8otSzgjLj6t")
      = some "538wmA1ifr6Khoeq2t5MyHZ82pExj" ∧
    toBase58 (toEvmHex "TR7NHqjeKQxGTCi8q8ZY4pL8otSzgjLj6t")
      ≠ some "TR7NHqjeKQxGTCi8q8ZY4pL8otSzgjLj6t" :=
  ⟨by decide, by decide, by decide, by decide⟩

/- Section 12: theorems about the GasFree API client (claims C9 and C1). -/

/-- Claim C9: getNonce never propagates an error. Every failing address-info
request (network error, non-200 HTTP status, API-level error code) yields ok 0
after a logged warning, a 200 response with a missing nonce also yields ok 0,
and a relay outage is therefore indistinguishable from a fresh account whose
true nonce is 0. -/
theorem getNonce_never_fails_defaults_zero :
    (∀ env : FetchOutcome GasFreeAddressInfo, ∃ n, getNonce env = Except.ok n) ∧
    (∀ m, getNonce (FetchOutcome.netError m) = Except.ok 0) ∧
    (∀ status body,
       getNonce (FetchOutcome.httpNotOk (α := GasFreeAddressInfo) status body) = Except.ok 0) ∧
    (∀ resp : GasFreeResponse GasFreeAddressInfo, resp.code ≠ 200 →
       getNonce (FetchOutcome.got resp) = Except.ok 0) ∧
    (∀ resp : GasFreeResponse GasFreeAddressInfo, resp.data.nonce = none →
       getNonce (FetchOutcome.got resp) = Except.ok 0) ∧
    (∀ (resp : GasFreeResponse GasFreeAddressInfo) m, resp.data.nonce = some 0 →
       getNonce (FetchOutcome.got resp) = getNonce (FetchOutcome.netError m)) := by
  refine ⟨fun env => ?_, fun m => rfl, fun status body => rfl,
    fun resp h => ?_, fun resp h => ?_, fun resp m h => ?_⟩
  · unfold getNonce
    cases getAddressInfo env with
    | ok d => exact ⟨d.nonce.getD 0, rfl⟩
    | error e => exact ⟨0, rfl⟩
  · simp [getNonce, getAddressInfo, h]
  · by_cases hc : resp.code = 200
    · simp [getNonce, getAddressInfo, hc, h]
    · simp [getNonce, getAddressInfo, hc]
  · by_cases hc : resp.code = 200
    · simp [getNonce, getAddressInfo, hc, h]
    · simp [getNonce, getAddressInfo, hc]

/-- Witness for C9: a 500 envelope and a 200 envelope whose account carries
nonce 0 both produce ok 0. -/
theorem getNonce_never_fails_defaults_zero_witness :
    getNonce (FetchOutcome.got
      ⟨500, some "err", none, ⟨"Tacct", "Tgf", true, some 7, true, []⟩⟩) = Except.ok 0 ∧
    getNonce (FetchOutcome.got
        ⟨200, none, none, ⟨"Tacct", "Tgf", true, some 0, true, []⟩⟩)
      = getNonce (FetchOutcome.netError "connection refused") :=
  ⟨getNonce_never_fails_defaults_zero.2.2.2.1 _ (by decide),
   getNonce_never_fails_defaults_zero.2.2.2.2.2 _ "connection refused" rfl⟩

/-- A status on which the waitForSuccess loop keeps polling: neither SUCCEED
nor FAILED, and not marked ON_CHAIN_FAILED. -/
def nonTerminalStatus (s : GasFreeSubmitResponseData) : Prop :=
  s.state ≠ GFState.SUCCEED ∧ s.state ≠ GFState.FAILED ∧
    s.txnState ≠ some TxnState.ON_CHAIN_FAILED

instance (s : GasFreeSubmitResponseData) : Decidable (nonTerminalStatus s) := by
  unfold nonTerminalStatus
  infer_instance

/-- Observing a non-terminal status makes the loop poll again with that status
recorded as last. -/
lemma waitLoop_cons_nonterminal (s : GasFreeSubmitResponseData)
    (rest : List GasFreeSubmitResponseData) (last : Option GasFreeSubmitResponseData)
    (h : nonTerminalStatus s) : waitLoop (s :: rest) last = waitLoop rest (some s) := by
  obtain ⟨h1, h2, h3⟩ := h
  simp [waitLoop, h1, h2, h3]

/-- After any non-terminal prefix, a SUCCEED observation returns that status
at once. -/
lemma waitLoop_succeed (pre : List GasFreeSubmitResponseData) :
    ∀ (last : Option GasFreeSubmitResponseData) s rest,
      (∀ t ∈ pre, nonTerminalStatus t) → s.state = GFState.SUCCEED →
      waitLoop (pre ++ s :: rest) last = WaitOutcome.success s := by
  induction pre with
  | nil =>
    intro last s rest _ hs
    simp [waitLoop, hs]
  | cons p ps ih =>
    intro last s rest hpre hs
    rw [List.cons_append, waitLoop_cons_nonterminal p _ last (hpre p (List.mem_cons_self p ps))]
    exact ih _ s rest (fun t ht => hpre t (List.mem_cons_of_mem p ht)) hs

/-- After any non-terminal prefix, a FAILED status or an ON_CHAIN_FAILED
transaction state raises at once, regardless of the remaining budget. -/
lemma waitLoop_failed (pre : List GasFreeSubmitResponseData) :
    ∀ (last : Option GasFreeSubmitResponseData) s rest,
      (∀ t ∈ pre, nonTerminalStatus t) → s.state ≠ GFState.SUCCEED →
      (s.state = GFState.FAILED ∨ s.txnState = some TxnState.ON_CHAIN_FAILED) →
      waitLoop (pre ++ s :: rest) last = WaitOutcome.failure s := by
  induction pre with
  | nil =>
    intro last s rest _ hs1 hs2
    rcases hs2 with h | h
    · simp [waitLoop, hs1, h]
    · simp [waitLoop, hs1, h]
  | cons p ps ih =>
    intro last s rest hpre hs1 hs2
    rw [List.cons_append, waitLoop_cons_nonterminal p _ last (hpre p (List.mem_cons_self p ps))]
    exact ih _ s rest (fun t ht => hpre t (List.mem_cons_of_mem p ht)) hs1 hs2

/-- When the budget runs out on a wholly non-terminal observation sequence,
the outcome is decided by the grace rule on the last observed status. -/
lemma waitLoop_timeout (pre : List GasFreeSubmitResponseData) :
    ∀ (last : Option GasFreeSubmitResponseData) s,
      (∀ t ∈ pre ++ [s], nonTerminalStatus t) →
      waitLoop (pre ++ [s]) last =
        (if s.state = GFState.CONFIRMING ∧ s.txnState = some TxnState.ON_CHAIN
         then WaitOutcome.success s else WaitOutcome.timeoutErr) := by
  induction pre with
  | nil =>
    intro last s hall
    rw [List.nil_append,
      waitLoop_cons_nonterminal s [] last (hall s (List.mem_cons_self s []))]
    rfl
  | cons p ps ih =>
    intro last s hall
    rw [List.cons_append,
      waitLoop_cons_nonterminal p _ last (hall p (List.mem_cons_self p _))]
    exact ih _ s (fun t ht => hall t (List.mem_cons_of_mem p ht))

/-- Claim C1: the waitForSuccess settlement state machine. Over any observed
status sequence (the polls the wall-clock budget admits): a SUCCEED state
returns that status as soon as it is observed; a FAILED state or an
ON_CHAIN_FAILED transaction state raises at once without waiting for the
timeout; and when the budget elapses on only non-terminal observations, the
last observed status is returned exactly when it is CONFIRMING with txnState
ON_CHAIN (grace success), a timeout error being raised otherwise, in
particular when nothing was observed at all. -/
theorem waitForSuccess_state_machine :
    (∀ pre s rest, (∀ t ∈ pre, nonTerminalStatus t) → s.state = GFState.SUCCEED →
       waitForSuccess (pre ++ s :: rest) = WaitOutcome.success s) ∧
    (∀ pre s rest, (∀ t ∈ pre, nonTerminalStatus t) → s.state ≠ GFState.SUCCEED →
       (s.state = GFState.FAILED ∨ s.txnState = some TxnState.ON_CHAIN_FAILED) →
       waitForSuccess (pre ++ s :: rest) = WaitOutcome.failure s) ∧
    (∀ pre s, (∀ t ∈ pre ++ [s], nonTerminalStatus t) →
       waitForSuccess (pre ++ [s]) =
         (if s.state = GFState.CONFIRMING ∧ s.txnState = some TxnState.ON_CHAIN
          then WaitOutcome.success s else WaitOutcome.timeoutErr)) ∧
    waitForSuccess [] = WaitOutcome.timeoutErr :=
  ⟨fun pre s rest hpre hs => waitLoop_succeed pre none s rest hpre hs,
   fun pre s rest hpre hs1 hs2 => waitLoop_failed pre none s rest hpre hs1 hs2,
   fun pre s hall => waitLoop_timeout pre none s hall,
   rfl⟩

/-- Witness for C1 at concrete status sequences: grace success at timeout,
immediate failure, immediate success, and plain timeout. -/
theorem waitForSuccess_state_machine_witness :
    waitForSuccess
        [⟨"t", GFState.WAITING, none, none⟩,
         ⟨"t", GFState.CONFIRMING, some TxnState.ON_CHAIN, none⟩]
      = WaitOutcome.success ⟨"t", GFState.CONFIRMING, some TxnState.ON_CHAIN, none⟩ ∧
    waitForSuccess
        [⟨"t", GFState.WAITING, none, none⟩, ⟨"t", GFState.FAILED, none, some "err"⟩,
         ⟨"t", GFState.WAITING, none, none⟩]
      = WaitOutcome.failure ⟨"t", GFState.FAILED, none, some "err"⟩ ∧
    waitForSuccess
        [⟨"t", GFState.INPROGRESS, none, none⟩, ⟨"t", GFState.SUCCEED, some TxnState.SOLIDITY, none⟩]
      = WaitOutcome.success ⟨"t", GFState.SUCCEED, some TxnState.SOLIDITY, none⟩ ∧
    waitForSuccess
        [⟨"t", GFState.WAITING, none, none⟩, ⟨"t", GFState.CONFIRMING, some TxnState.NOT_ON_CHAIN, none⟩]
      = WaitOutcome.timeoutErr :=
  ⟨(waitForSuccess_state_machine.2.2.1 [⟨"t", GFState.WAITING, none, none⟩]
      ⟨"t", GFState.CONFIRMING, some TxnState.ON_CHAIN, none⟩ (by decide)).trans (by decide),
   waitForSuccess_state_machine.2.1 [⟨"t", GFState.WAITING, none, none⟩]
     ⟨"t", GFState.FAILED, none, some "err"⟩ [⟨"t", GFState.WAITING, none, none⟩]
     (by decide) (by decide) (Or.inl rfl),
   waitForSuccess_state_machine.1 [⟨"t", GFState.INPROGRESS, none, none⟩]
     ⟨"t", GFState.SUCCEED, some TxnState.SOLIDITY, none⟩ [] (by decide) rfl,
   (waitForSuccess_state_machine.2.2.1 [⟨"t", GFState.WAITING, none, none⟩]
      ⟨"t", GFState.CONFIRMING, some TxnState.NOT_ON_CHAIN, none⟩ (by decide)).trans (by decide)⟩

/- Section 13: theorems about token selection (claim C4). -/

/-- The scanning fold of defaultSelect, named for the proofs. -/
def selGo (a : PaymentRequirements) (l : List PaymentRequirements) : PaymentRequirements :=
  l.foldl (fun best r => if normalizedCost r < normalizedCost best then r else best) a

/-- On a non-empty list, defaultSelect is the scanning fold from the head. -/
lemma defaultSelect_cons (a : PaymentRequirements) (l : List PaymentRequirements) :
    defaultSelect (a :: l) = some (selGo a l) := rfl

/-- The scanning fold picks the first element of minimal normalized cost:
everything before it costs strictly more, everything after it at least as
much. -/
lemma selGo_first_min (l : List PaymentRequirements) :
    ∀ a : PaymentRequirements,
      ∃ l1 l2, a :: l = l1 ++ selGo a l :: l2 ∧
        (∀ x ∈ l1, normalizedCost (selGo a l) < normalizedCost x) ∧
        (∀ x ∈ l2, normalizedCost (selGo a l) ≤ normalizedCost x) := by
  induction l with
  | nil =>
    intro a
    exact ⟨[], [], rfl, by simp, by simp⟩
  | cons b l ih =>
    intro a
    by_cases hc : normalizedCost b < normalizedCost a
    · have hstep : selGo a (b :: l) = selGo b l := by simp [selGo, List.foldl, hc]
      obtain ⟨l1, l2, heq, hlt, hle⟩ := ih b
      have hrb : normalizedCost (selGo b l) ≤ normalizedCost b := by
        cases l1 with
        | nil =>
          have hb : b = selGo b l := (List.cons.injEq _ _ _ _ ▸ heq).1
          rw [← hb]
        | cons c l1t =>
          have hb : b = c := by
            have := heq
            rw [List.cons_append] at this
            exact (List.cons.injEq _ _ _ _ ▸ this).1
          exact le_of_lt (hb ▸ hlt c (List.mem_cons_self c l1t))
      refine ⟨a :: l1, l2, ?_, ?_, ?_⟩
      · rw [hstep, List.cons_append, ← heq]
      · intro x hx
        rw [hstep]
        rcases List.mem_cons.mp hx with rfl | hx1
        · exact lt_of_le_of_lt hrb hc
        · exact hlt x hx1
      · intro x hx
        rw [hstep]
        exact hle x hx
    · have hstep : selGo a (b :: l) = selGo a l := by simp [selGo, List.foldl, hc]
      obtain ⟨l1, l2, heq, hlt, hle⟩ := ih a
      cases l1 with
      | nil =>
        have ha : a = selGo a l := (List.cons.injEq _ _ _ _ ▸ heq).1
        have hl : l = l2 := (List.cons.injEq _ _ _ _ ▸ heq).2
        refine ⟨[], b :: l2, ?_, by simp, ?_⟩
        · rw [hstep, List.nil_append, ← ha, hl]
        · intro x hx
          rw [hstep]
          rcases List.mem_cons.mp hx with rfl | hx1
          · rw [← ha]
            exact le_of_not_lt hc
          · exact hle x hx1
      | cons c l1t =>
        have hac : a = c ∧ l = l1t ++ selGo a l :: l2 := by
          have := heq
          rw [List.cons_append] at this
          exact ⟨(List.cons.injEq _ _ _ _ ▸ this).1, (List.cons.injEq _ _ _ _ ▸ this).2⟩
        have hca : normalizedCost (selGo a l) < normalizedCost a :=
          hac.1 ▸ hlt c (List.mem_cons_self c l1t)
        refine ⟨a :: b :: l1t, l2, ?_, ?_, ?_⟩
        · rw [hstep, List.cons_append, List.cons_append, ← hac.2]
        · intro x hx
          rw [hstep]
          rcases List.mem_cons.mp hx with rfl | hx1
          · exact hca
          · rcases List.mem_cons.mp hx1 with rfl | hx2
            · exact lt_of_lt_of_le hca (le_of_not_lt hc)
            · exact hlt x (hac.1 ▸ List.mem_cons_of_mem c hx2)
        · intro x hx
          rw [hstep]
          exact hle x hx

/-- Counterexample to claim C4 as stated: with two tron:nile USDT candidates,
one of amount 100 and fee 50 (spec cost 150 millionths) and one of amount 120
and no fee (spec cost 120 millionths), the default strategy returns the first,
whose amount-plus-fee normalized cost is strictly larger — normalizedCost in
the code divides the amount alone, ignoring the fee the specification
includes. -/
theorem defaultSelect_fee_blind_counterexample :
    defaultSelect
        [⟨"gasfree_exact", "tron:nile", 100, "TXYZopYRdj2D9XRtbG411XZZ3kM5VkAeBf", "Tpay", some 50⟩,
         ⟨"gasfree_exact", "tron:nile", 120, "TXYZopYRdj2D9XRtbG411XZZ3kM5VkAeBf", "Tpay", none⟩]
      = some ⟨"gasfree_exact", "tron:nile", 100, "TXYZopYRdj2D9XRtbG411XZZ3kM5VkAeBf", "Tpay", some 50⟩ ∧
    specNormalizedCost
        ⟨"gasfree_exact", "tron:nile", 120, "TXYZopYRdj2D9XRtbG411XZZ3kM5VkAeBf", "Tpay", none⟩
      < specNormalizedCost
        ⟨"gasfree_exact", "tron:nile", 100, "TXYZopYRdj2D9XRtbG411XZZ3kM5VkAeBf", "Tpay", some 50⟩ :=
  ⟨by decide, by decide⟩

/-- Claim C4 (amended): for every non-empty candidate list the default
strategy returns the first candidate minimizing amount / 10 ^ decimals — the
fee is not part of the implemented normalized cost — with decimals taken from
the token registry (default 6), and ties broken deterministically by original
input order; in particular the registry USDT (6 decimals) and USDD (18
decimals) candidates for one unit are equal-cost and the first in input order
wins, whichever order is presented. -/
theorem defaultSelect_min_amount_cost :
    (∀ a l, ∃ r l1 l2,
       defaultSelect (a :: l) = some r ∧ a :: l = l1 ++ r :: l2 ∧
       (∀ x ∈ l1, normalizedCost r < normalizedCost x) ∧
       (∀ x ∈ l2, normalizedCost r ≤ normalizedCost x)) ∧
    defaultSelect [] = none ∧
    (normalizedCost
         ⟨"gasfree_exact", "tron:nile", 1000000, "TXYZopYRdj2D9XRtbG411XZZ3kM5VkAeBf", "Tpay", none⟩
       = normalizedCost
         ⟨"gasfree_exact", "tron:nile", 1000000000000000000, "TGjgvdTWWrybVLaVeFqSyVqJQWjxqRYbaK", "Tpay", none⟩ ∧
     defaultSelect
         [⟨"gasfree_exact", "tron:nile", 1000000, "TXYZopYRdj2D9XRtbG411XZZ3kM5VkAeBf", "Tpay", none⟩,
          ⟨"gasfree_exact", "tron:nile", 1000000000000000000, "TGjgvdTWWrybVLaVeFqSyVqJQWjxqRYbaK", "Tpay", none⟩]
       = some ⟨"gasfree_exact", "tron:nile", 1000000, "TXYZopYRdj2D9XRtbG411XZZ3kM5VkAeBf", "Tpay", none⟩ ∧
     defaultSelect
         [⟨"gasfree_exact", "tron:nile", 1000000000000000000, "TGjgvdTWWrybVLaVeFqSyVqJQWjxqRYbaK", "Tpay", none⟩,
          ⟨"gasfree_exact", "tron:nile", 1000000, "TXYZopYRdj2D9XRtbG411XZZ3kM5VkAeBf", "Tpay", none⟩]
       = some ⟨"gasfree_exact", "tron:nile", 1000000000000000000, "TGjgvdTWWrybVLaVeFqSyVqJQWjxqRYbaK", "Tpay", none⟩) := by
  refine ⟨fun a l => ?_, rfl, by decide, by decide, by decide⟩
  obtain ⟨l1, l2, heq, hlt, hle⟩ := selGo_first_min l a
  exact ⟨selGo a l, l1, l2, defaultSelect_cons a l, heq, hlt, hle⟩

/-- Witness for C4 at the equal-cost registry scenario, via the theorem. -/
theorem defaultSelect_min_amount_cost_witness :
    defaultSelect
        [⟨"gasfree_exact", "tron:nile", 1000000, "TXYZopYRdj2D9XRtbG411XZZ3kM5VkAeBf", "Tpay", none⟩,
         ⟨"gasfree_exact", "tron:nile", 1000000000000000000, "TGjgvdTWWrybVLaVeFqSyVqJQWjxqRYbaK", "Tpay", none⟩]
      = some ⟨"gasfree_exact", "tron:nile", 1000000, "TXYZopYRdj2D9XRtbG411XZZ3kM5VkAeBf", "Tpay", none⟩ :=
  defaultSelect_min_amount_cost.2.2.2.1

/- Section 14: theorems about the mechanism registry (claim C7). -/

/-- Descending-priority order between registry entries. -/
def descPriority (a b : MechanismEntry) : Prop := b.priority ≤ a.priority

/-- Membership through the stable insertion. -/
lemma mem_insertDescPriority (e x : MechanismEntry) (l : List MechanismEntry) :
    x ∈ insertDescPriority e l ↔ x = e ∨ x ∈ l := by
  induction l with
  | nil => simp [insertDescPriority]
  | cons y ys ih =>
    by_cases hc : e.priority < y.priority
    · simp only [insertDescPriority, if_pos hc, List.mem_cons, ih]
      tauto
    · simp only [insertDescPriority, if_neg hc, List.mem_cons]

/-- Membership through the stable sort. -/
lemma mem_sortDescPriority (x : MechanismEntry) (l : List MechanismEntry) :
    x ∈ sortDescPriority l ↔ x ∈ l := by
  induction l with
  | nil => simp [sortDescPriority]
  | cons y ys ih =>
    simp only [sortDescPriority, mem_insertDescPriority, List.mem_cons, ih]

/-- The stable insertion preserves descending order. -/
lemma pairwise_insertDescPriority (e : MechanismEntry) (l : List MechanismEntry)
    (h : List.Pairwise descPriority l) :
    List.Pairwise descPriority (insertDescPriority e l) := by
  induction l with
  | nil => simp [insertDescPriority, List.pairwise_cons]
  | cons y ys ih =>
    obtain ⟨hy, hys⟩ := List.pairwise_cons.mp h
    by_cases hc : e.priority < y.priority
    · rw [insertDescPriority, if_pos hc]
      refine List.pairwise_cons.mpr ⟨?_, ih hys⟩
      intro z hz
      rcases (mem_insertDescPriority e z ys).mp hz with rfl | hz2
      · exact le_of_lt hc
      · exact hy z hz2
    · rw [insertDescPriority, if_neg hc]
      refine List.pairwise_cons.mpr ⟨?_, h⟩
      intro z hz
      rcases List.mem_cons.mp hz with rfl | hz2
      · exact le_of_not_lt hc
      · exact le_trans (hy z hz2) (le_of_not_lt hc)

/-- The sort used by register always produces a descending-priority list. -/
lemma pairwise_sortDescPriority (l : List MechanismEntry) :
    List.Pairwise descPriority (sortDescPriority l) := by
  induction l with
  | nil => simp [sortDescPriority]
  | cons y ys ih => exact pairwise_insertDescPriority y _ ih

/-- Membership of the registry after one register call. -/
lemma mem_register (x : MechanismEntry) (ms : List MechanismEntry) (p : String) (m : Nat) :
    x ∈ register ms p m ↔ x ∈ ms ∨ x = ⟨p, m, calculatePriority p⟩ := by
  rw [register, mem_sortDescPriority]
  simp

/-- After any sequence of register calls from any starting registry the result
is sorted whenever the start was, and its members are exactly the starting
members plus one entry per registration, carrying the pattern, the mechanism
and the priority computed from the pattern. -/
lemma foldl_register_props (regs : List (String × Nat)) :
    ∀ ms : List MechanismEntry,
      (List.Pairwise descPriority ms →
        List.Pairwise descPriority
          (regs.foldl (fun acc pm => register acc pm.1 pm.2) ms)) ∧
      (∀ x, x ∈ regs.foldl (fun acc pm => register acc pm.1 pm.2) ms ↔
        x ∈ ms ∨ ∃ pm ∈ regs, x = (⟨pm.1, pm.2, calculatePriority pm.1⟩ : MechanismEntry)) := by
  induction regs with
  | nil =>
    intro ms
    exact ⟨fun h => h, by simp⟩
  | cons pm regs ih =>
    intro ms
    constructor
    · intro _
      exact (ih (register ms pm.1 pm.2)).1
        (by rw [register]; exact pairwise_sortDescPriority _)
    · intro x
      rw [List.foldl_cons, (ih (register ms pm.1 pm.2)).2 x, mem_register]
      simp only [List.mem_cons]
      constructor
      · rintro ((hx | rfl) | ⟨q, hq, rfl⟩)
        · exact Or.inl hx
        · exact Or.inr ⟨pm, Or.inl rfl, rfl⟩
        · exact Or.inr ⟨q, Or.inr hq, rfl⟩
      · rintro (hx | ⟨q, (rfl | hq), rfl⟩)
        · exact Or.inl (Or.inl hx)
        · exact Or.inl (Or.inr rfl)
        · exact Or.inr ⟨q, hq, rfl⟩

/-- Every network matches itself as a pattern. -/
lemma matchPattern_self (n : String) : matchPattern n n = true := by
  simp [matchPattern]

/-- A non-wildcard pattern matches only the network equal to it. -/
lemma matchPattern_exact_eq {p n : String} (hw : jsEndsWith p ":*" = false)
    (hm : matchPattern p n = true) : p = n := by
  unfold matchPattern at hm
  by_cases hpn : (p == n) = true
  · exact eq_of_beq hpn
  · rw [if_neg (by simp [hpn]), hw] at hm
    exact absurd hm (by simp)

/-- In a descending-priority registry whose priorities agree with its
patterns, the first matching entry for a non-wildcard network id that has an
exactly matching entry is itself exact. -/
lemma findMechanismEntry_exact :
    ∀ (ms : List MechanismEntry) (network : String),
      List.Pairwise descPriority ms →
      (∀ e ∈ ms, e.priority = calculatePriority e.pattern) →
      jsEndsWith network ":*" = false →
      (∃ ex ∈ ms, ex.pattern = network) →
      ∃ e, findMechanismEntry ms network = some e ∧ e.pattern = network := by
  intro ms
  induction ms with
  | nil =>
    intro network _ _ _ hex
    rcases hex with ⟨ex, hmem, _⟩
    cases hmem
  | cons h tl ih =>
    intro network hsorted hprio hnw hex
    cases hm : matchPattern h.pattern network with
    | true =>
      refine ⟨h, by simp [findMechanismEntry, List.find?, hm], ?_⟩
      cases hwild : jsEndsWith h.pattern ":*" with
      | false => exact matchPattern_exact_eq hwild hm
      | true =>
        exfalso
        obtain ⟨ex, hexmem, hexpat⟩ := hex
        have hex10 : ex.priority = 10 := by
          rw [hprio ex hexmem, hexpat, calculatePriority, if_neg (by simp [hnw])]
        have hh1 : h.priority = 1 := by
          rw [hprio h (List.mem_cons_self h tl), calculatePriority, if_pos hwild]
        have hne : ex ≠ h := by
          intro hcon
          rw [hcon] at hexpat
          rw [hexpat] at hwild
          rw [hnw] at hwild
          exact Bool.noConfusion hwild
        have hextl : ex ∈ tl := by
          rcases List.mem_cons.mp hexmem with rfl | h2
          · exact absurd rfl hne
          · exact h2
        have hle : descPriority h ex := (List.pairwise_cons.mp hsorted).1 ex hextl
        rw [descPriority, hex10, hh1] at hle
        omega
    | false =>
      have hstep : findMechanismEntry (h :: tl) network = findMechanismEntry tl network := by
        simp [findMechanismEntry, List.find?, hm]
      rw [hstep]
      refine ih network (List.pairwise_cons.mp hsorted).2
        (fun e he => hprio e (List.mem_cons_of_mem h he)) hnw ?_
      obtain ⟨ex, hexmem, hexpat⟩ := hex
      refine ⟨ex, ?_, hexpat⟩
      rcases List.mem_cons.mp hexmem with rfl | h2
      · exfalso
        rw [hexpat, matchPattern_self network] at hm
        exact Bool.noConfusion hm
      · exact h2

/-- Claim C7: for every sequence of register calls and every network id (a
non-wildcard identifier, per the spec taxonomy of patterns), if an exact
pattern equal to the id and a matching wildcard pattern are both registered,
then findMechanism resolves to an entry registered under the exact pattern,
regardless of registration order: registration keeps the list stably sorted
by descending priority (exact 10, wildcard 1). -/
theorem findMechanism_exact_wins :
    ∀ (regs : List (String × Nat)) (network : String),
      jsEndsWith network ":*" = false →
      (∃ pm ∈ regs, pm.1 = network) →
      (∃ wm ∈ regs, jsEndsWith wm.1 ":*" = true ∧ matchPattern wm.1 network = true) →
      ∃ e, findMechanismEntry (registerAll regs) network = some e ∧
        e.pattern = network ∧ (e.pattern, e.mechanism) ∈ regs := by
  intro regs network hnw hex _hwild
  have props := foldl_register_props regs []
  have hsorted : List.Pairwise descPriority (registerAll regs) :=
    props.1 List.Pairwise.nil
  have hprio : ∀ e ∈ registerAll regs, e.priority = calculatePriority e.pattern := by
    intro e he
    rcases (props.2 e).mp he with hnil | ⟨pm, _, rfl⟩
    · cases hnil
    · rfl
  have hexact : ∃ ex ∈ registerAll regs, ex.pattern = network := by
    obtain ⟨pm, hpm, hp1⟩ := hex
    exact ⟨⟨pm.1, pm.2, calculatePriority pm.1⟩,
      (props.2 _).mpr (Or.inr ⟨pm, hpm, rfl⟩), hp1⟩
  obtain ⟨e, hfind, hpat⟩ :=
    findMechanismEntry_exact (registerAll regs) network hsorted hprio hnw hexact
  refine ⟨e, hfind, hpat, ?_⟩
  have hemem : e ∈ registerAll regs := List.mem_of_find?_eq_some hfind
  rcases (props.2 e).mp hemem with hnil | ⟨pm, hpm, rfl⟩
  · cases hnil
  · exact hpm

/-- Witness for C7: the wildcard registered first still loses to the exact
pattern registered second. -/
theorem findMechanism_exact_wins_witness :
    ∃ e, findMechanismEntry (registerAll [("tron:*", 7), ("tron:nile", 42)]) "tron:nile"
        = some e ∧ e.pattern = "tron:nile" ∧ (e.pattern, e.mechanism) ∈
          [("tron:*", 7), ("tron:nile", 42)] :=
  findMechanism_exact_wins [("tron:*", 7), ("tron:nile", 42)] "tron:nile"
    (by decide) ⟨("tron:nile", 42), by decide, by decide⟩
    ⟨("tron:*", 7), by decide, by decide, by decide⟩

/- Section 15: theorems about the GasFree mechanism (claims C2 and C3). -/

/-- Whether an Except value is a successful return. -/
def exceptIsOk {ε α : Type} : Except ε α → Bool
  | Except.ok _ => true
  | Except.error _ => false

/-- The protocol transfer fee createPaymentPayload reads for the requested
asset: the transferFee of the matching account asset, zero when absent. -/
def mechTransferFee (req : PaymentRequirements) (info : GasFreeAddressInfo) : Nat :=
  match info.assets.find? (fun a => a.tokenAddress == req.asset) with
  | some a => a.transferFee
  | none => 0

/-- The maxFee createPaymentPayload signs: the requirements-resolved fee
raised to the protocol transfer fee when below it. -/
def mechMaxFee (req : PaymentRequirements) (info : GasFreeAddressInfo) : Nat :=
  if resolveRequirementsFee req < mechTransferFee req info then mechTransferFee req info
  else resolveRequirementsFee req

/-- Case shape of every createPaymentPayload run: either it throws without
ever signing, or every checked precondition passed (account fetched, GasFree
address present, account active, and — unless skipped — asset present with a
balance covering amount plus the floored maxFee) and the run is the signing
tail with the floored maxFee. -/
lemma createPaymentPayload_shape (req : PaymentRequirements) (resource : String)
    (ext : MechExtensions) (env : MechEnv) :
    (hasSignEvent (createPaymentPayload req resource ext env).1 = false ∧
      ∃ e, (createPaymentPayload req resource ext env).2 = Except.error e) ∨
    (∃ info, getAddressInfo env.addressInfo = Except.ok info ∧
      info.gasFreeAddress ≠ "" ∧ info.active = true ∧
      (ext.skipBalanceCheck = false →
        ∃ a, info.assets.find? (fun x => x.tokenAddress == req.asset) = some a ∧
          req.amount + mechMaxFee req info ≤ a.balance.getD 0) ∧
      createPaymentPayload req resource ext env =
        buildSignedPayload req resource ext env info.gasFreeAddress
          (info.nonce.getD 0) (mechMaxFee req info)) := by
  cases hchain : getChainId req.network with
  | error e =>
    exact Or.inl (by simp [createPaymentPayload, hchain, hasSignEvent])
  | ok cid =>
    cases haddr : getAddressInfo env.addressInfo with
    | error e =>
      exact Or.inl (by simp [createPaymentPayload, hchain, haddr, hasSignEvent])
    | ok info =>
      by_cases hga : info.gasFreeAddress = ""
      · exact Or.inl (by simp [createPaymentPayload, hchain, haddr, hga, hasSignEvent])
      · by_cases hact : info.active = false
        · exact Or.inl (by simp [createPaymentPayload, hchain, haddr, hga, hact, hasSignEvent])
        · have hactive : info.active = true := by
            cases h : info.active
            · exact absurd h hact
            · rfl
          by_cases hskip : ext.skipBalanceCheck = false
          · cases hfind : info.assets.find? (fun a => a.tokenAddress == req.asset) with
            | none =>
              refine Or.inl ?_
              simp [createPaymentPayload, hchain, haddr, hga, hact, hskip, hfind, hasSignEvent]
            | some a =>
              by_cases hbal : a.balance.getD 0 < req.amount +
                  (if resolveRequirementsFee req < a.transferFee then a.transferFee
                   else resolveRequirementsFee req)
              · refine Or.inl ?_
                constructor
                · simp [createPaymentPayload, hchain, haddr, hga, hact, hskip, hfind,
                    if_pos hbal, hasSignEvent]
                · have hres : (createPaymentPayload req resource ext env).2 =
                      Except.error ("Insufficient balance in GasFree wallet " ++
                        info.gasFreeAddress ++ ". Please top up.") := by
                    simp [createPaymentPayload, hchain, haddr, hga, hact, hskip,
                      hfind, if_pos hbal]
                  exact ⟨_, hres⟩
              · refine Or.inr ⟨info, rfl, hga, hactive, ?_, ?_⟩
                · intro _
                  refine ⟨a, hfind, ?_⟩
                  rw [mechMaxFee, mechTransferFee, hfind]
                  exact le_of_not_lt hbal
                · have hmf : mechMaxFee req info =
                      (if resolveRequirementsFee req < a.transferFee then a.transferFee
                       else resolveRequirementsFee req) := by
                    rw [mechMaxFee, mechTransferFee, hfind]
                  rw [hmf]
                  simp [createPaymentPayload, hchain, haddr, hga, hact, hskip, hfind,
                    if_neg hbal]
          · refine Or.inr ⟨info, rfl, hga, hactive, fun h => absurd h hskip, ?_⟩
            have hmf : mechMaxFee req info =
                (if resolveRequirementsFee req < mechTransferFee req info
                 then mechTransferFee req info else resolveRequirementsFee req) := rfl
            simp only [createPaymentPayload, hchain, haddr, hga, hact, hskip, mechMaxFee,
              mechTransferFee]
            simp [if_neg hga, if_neg hact, hskip]

/-- The events and result of the signing tail, spelled out. -/
lemma buildSignedPayload_spelled (req : PaymentRequirements) (resource : String)
    (ext : MechExtensions) (env : MechEnv) (g : String) (n mf : Nat) :
    buildSignedPayload req resource ext env g n mf =
      ([MechEvent.fetchAddressInfo env.signerAddress,
        MechEvent.signTypedData req.asset mf n (jsOrNum ext.metaValidBefore (env.nowSeconds + 3600))],
       Except.ok
         { x402Version := 2
           resourceUrl := resource
           accepted := req
           signature := env.signature
           paymentPermit :=
             { meta :=
                 { kind := "PAYMENT_ONLY"
                   paymentId := ext.metaPaymentId.getD ""
                   nonce := n
                   validAfter := jsOrNum ext.metaValidAfter 0
                   validBefore := jsOrNum ext.metaValidBefore (env.nowSeconds + 3600) }
               buyer := env.signerAddress
               caller := env.verifyingContract
               payment := { payToken := req.asset, payAmount := req.amount, payTo := req.payTo }
               fee := { feeTo := req.payTo, feeAmount := mf }
               delivery :=
                 { receiveToken := "T9yD14Nj9j7xAB4dbGeiX9h8unkKHxuWwb"
                   miniReceiveAmount := 0
                   tokenId := 0 } }
           extGasfreeAddress := g
           extScheme := "gasfree_exact" }) := rfl

/-- Claim C2: when the account's asset entry for the requested asset carries
protocol transferFee F, every payload createPaymentPayload returns carries
fee.feeAmount at least F, equal to F exactly when the requirements-resolved
fee (default 100000 when the requirements carry none) is below F — in
particular, with no requirements fee and F = 1000000 the feeAmount is
1000000 — and the maxFee passed to signTypedData obeys the same floor. -/
theorem createPaymentPayload_fee_floor (req : PaymentRequirements) (resource : String)
    (ext : MechExtensions) (env : MechEnv) (info : GasFreeAddressInfo)
    (asset : GasFreeAsset)
    (hAddr : getAddressInfo env.addressInfo = Except.ok info)
    (hfind : info.assets.find? (fun a => a.tokenAddress == req.asset) = some asset) :
    (∀ p, (createPaymentPayload req resource ext env).2 = Except.ok p →
       asset.transferFee ≤ p.paymentPermit.fee.feeAmount ∧
       (resolveRequirementsFee req < asset.transferFee →
         p.paymentPermit.fee.feeAmount = asset.transferFee) ∧
       (asset.transferFee ≤ resolveRequirementsFee req →
         p.paymentPermit.fee.feeAmount = resolveRequirementsFee req) ∧
       (req.extraFeeAmount = none → asset.transferFee = 1000000 →
         p.paymentPermit.fee.feeAmount = 1000000)) ∧
    (∀ t mf n d,
       MechEvent.signTypedData t mf n d ∈ (createPaymentPayload req resource ext env).1 →
       asset.transferFee ≤ mf ∧
       (∀ p, (createPaymentPayload req resource ext env).2 = Except.ok p →
          p.paymentPermit.fee.feeAmount = mf)) := by
  have hmf : mechMaxFee req info =
      (if resolveRequirementsFee req < asset.transferFee then asset.transferFee
       else resolveRequirementsFee req) := by
    rw [mechMaxFee, mechTransferFee, hfind]
  have hfee : asset.transferFee ≤ mechMaxFee req info := by
    rw [hmf]
    by_cases hc : resolveRequirementsFee req < asset.transferFee
    · rw [if_pos hc]
    · rw [if_neg hc]
      exact le_of_not_lt hc
  rcases createPaymentPayload_shape req resource ext env with ⟨hns, e, herr⟩ | hok
  · constructor
    · intro p hp
      rw [herr] at hp
      exact Except.noConfusion hp
    · intro t mf n d hmem
      exfalso
      have : hasSignEvent (createPaymentPayload req resource ext env).1 = true := by
        rw [hasSignEvent, List.any_eq_true]
        exact ⟨_, hmem, rfl⟩
      rw [hns] at this
      exact Bool.noConfusion this
  · obtain ⟨info2, hAddr2, _, _, _, hrun⟩ := hok
    have hinfo : info2 = info := by
      rw [hAddr] at hAddr2
      exact (Except.ok.injEq _ _ ▸ hAddr2).symm
    subst hinfo
    rw [hrun, buildSignedPayload_spelled]
    constructor
    · intro p hp
      have hpv := (Except.ok.injEq _ _ ▸ hp)
      rw [← hpv]
      refine ⟨hfee, ?_, ?_, ?_⟩
      · intro hlt
        show mechMaxFee req info2 = asset.transferFee
        rw [hmf, if_pos hlt]
      · intro hge
        show mechMaxFee req info2 = resolveRequirementsFee req
        rw [hmf, if_neg (not_lt_of_le hge)]
      · intro hno hF
        show mechMaxFee req info2 = 1000000
        rw [hmf, hF]
        have hres : resolveRequirementsFee req = 100000 := by
          rw [resolveRequirementsFee, hno]
          rfl
        rw [hres]
        rfl
    · intro t mf n d hmem
      simp only [List.mem_cons, List.not_mem_nil, or_false] at hmem
      rcases hmem with hfetch | hsign
      · exact MechEvent.noConfusion hfetch
      · have hmfeq : mf = mechMaxFee req info2 := by
          injection hsign with h1 h2 h3 h4
        constructor
        · rw [hmfeq]
          exact hfee
        · intro p hp
          have hpv := (Except.ok.injEq _ _ ▸ hp)
          rw [← hpv, hmfeq]

/-- Requirements of the fee-floor scenario: tron:nile payment of 500 base
units with no requirements-provided fee. -/
def feeScenarioReq : PaymentRequirements :=
  ⟨"gasfree_exact", "tron:nile", 500, "TUsdtNile", "Tmerchant", none⟩

/-- Account asset of the fee-floor scenario: protocol transferFee 1000000 and
a balance covering amount plus fee. -/
def feeScenarioAsset : GasFreeAsset :=
  ⟨"TUsdtNile", "USDT", 0, 1000000, 6, 0, some 2000000⟩

/-- Account info of the fee-floor scenario: active account holding the
asset. -/
def feeScenarioInfo : GasFreeAddressInfo :=
  ⟨"Tuser", "TgasFreeAddr", true, some 3, true, [feeScenarioAsset]⟩

/-- Environment of the fee-floor scenario. -/
def feeScenarioEnv : MechEnv :=
  ⟨"Tuser", FetchOutcome.got ⟨200, none, none, feeScenarioInfo⟩, "0xsig", 1700000000, "Tctl"⟩

/-- Witness for C2: in the fee-floor scenario the returned payload exists and
its fee.feeAmount is exactly the 1000000 transfer-fee floor, not the smaller
default. -/
theorem createPaymentPayload_fee_floor_witness :
    ∃ p, (createPaymentPayload feeScenarioReq "https://r" ⟨none, none, none, false⟩
            feeScenarioEnv).2 = Except.ok p ∧
      1000000 ≤ p.paymentPermit.fee.feeAmount ∧
      p.paymentPermit.fee.feeAmount = 1000000 := by
  refine ⟨_, rfl, ?_, ?_⟩
  · have h := (createPaymentPayload_fee_floor feeScenarioReq "https://r"
      ⟨none, none, none, false⟩ feeScenarioEnv feeScenarioInfo feeScenarioAsset
      rfl (by decide)).1 _ rfl
    exact h.1
  · have h := (createPaymentPayload_fee_floor feeScenarioReq "https://r"
      ⟨none, none, none, false⟩ feeScenarioEnv feeScenarioInfo feeScenarioAsset
      rfl (by decide)).1 _ rfl
    exact h.2.2.2 rfl rfl

/-- Requirements used by the C3 scenarios. -/
def gateReq : PaymentRequirements :=
  ⟨"gasfree_exact", "tron:nile", 500, "TUsdtNile", "Tmerchant", none⟩

/-- Active account with no assets, for the skip-balance-check scenario. -/
def gateEmptyInfo : GasFreeAddressInfo :=
  ⟨"Tuser", "TgasFreeAddr", true, some 3, true, []⟩

/-- Environment serving the active empty account. -/
def gateEmptyEnv : MechEnv :=
  ⟨"Tuser", FetchOutcome.got ⟨200, none, none, gateEmptyInfo⟩, "0xsig", 1700000000, "Tctl"⟩

/-- Inactive account, for the activation-gating scenario. -/
def gateInactiveInfo : GasFreeAddressInfo :=
  ⟨"Tuser", "TgasFreeAddr", false, some 0, true, []⟩

/-- Environment serving the inactive account. -/
def gateInactiveEnv : MechEnv :=
  ⟨"Tuser", FetchOutcome.got ⟨200, none, none, gateInactiveInfo⟩, "0xsig", 1700000000, "Tctl"⟩

/-- Counterexample to claim C3 as stated: with extensions.skipBalanceCheck set
and an active account holding no assets at all, the asset-presence and
balance-sufficiency preconditions have not passed, yet createPaymentPayload
succeeds and signTypedData is invoked. -/
theorem createPaymentPayload_skip_counterexample :
    gateEmptyInfo.assets.find? (fun a => a.tokenAddress == gateReq.asset) = none ∧
    hasSignEvent (createPaymentPayload gateReq "https://r" ⟨none, none, none, true⟩
      gateEmptyEnv).1 = true ∧
    exceptIsOk (createPaymentPayload gateReq "https://r" ⟨none, none, none, true⟩
      gateEmptyEnv).2 = true :=
  ⟨rfl, by decide, by decide⟩

/-- Claim C3 (amended): an inactive account or a missing GasFree address makes
createPaymentPayload throw a descriptive error with signTypedData never
invoked; more generally a produced signature implies the activation
precondition passed and, unless balance checking was explicitly skipped via
extensions.skipBalanceCheck, that the asset was present with a balance
covering amount plus the resolved maxFee. -/
theorem createPaymentPayload_sign_gating (req : PaymentRequirements) (resource : String)
    (ext : MechExtensions) (env : MechEnv) :
    (hasSignEvent (createPaymentPayload req resource ext env).1 = true →
      ∃ info, getAddressInfo env.addressInfo = Except.ok info ∧
        info.gasFreeAddress ≠ "" ∧ info.active = true ∧
        (ext.skipBalanceCheck = false →
          ∃ a, info.assets.find? (fun x => x.tokenAddress == req.asset) = some a ∧
            req.amount + mechMaxFee req info ≤ a.balance.getD 0)) ∧
    (∀ info, getAddressInfo env.addressInfo = Except.ok info →
      (info.active = false ∨ info.gasFreeAddress = "") →
      (∃ e, (createPaymentPayload req resource ext env).2 = Except.error e) ∧
        hasSignEvent (createPaymentPayload req resource ext env).1 = false) := by
  rcases createPaymentPayload_shape req resource ext env with ⟨hns, e, herr⟩ | hok
  · constructor
    · intro h
      rw [hns] at h
      exact absurd h (by simp)
    · intro info hAddr hbad
      exact ⟨⟨e, herr⟩, hns⟩
  · obtain ⟨info, hAddr, hga, hact, hbalance, hrun⟩ := hok
    constructor
    · intro _
      exact ⟨info, hAddr, hga, hact, hbalance⟩
    · intro info2 hAddr2 hbad
      exfalso
      have hinfo : info2 = info := by
        rw [hAddr] at hAddr2
        exact (Except.ok.injEq _ _ ▸ hAddr2).symm
      subst hinfo
      rcases hbad with hb | hb
      · rw [hact] at hb
        exact Bool.noConfusion hb
      · exact hga hb

/-- Witness for C3 at the inactive account: the call errors and no
signTypedData event appears in the trace. -/
theorem createPaymentPayload_sign_gating_witness :
    (∃ e, (createPaymentPayload gateReq "https://r" ⟨none, none, none, false⟩
        gateInactiveEnv).2 = Except.error e) ∧
    hasSignEvent (createPaymentPayload gateReq "https://r" ⟨none, none, none, false⟩
      gateInactiveEnv).1 = false :=
  (createPaymentPayload_sign_gating gateReq "https://r" ⟨none, none, none, false⟩
    gateInactiveEnv).2 gateInactiveInfo rfl (Or.inl rfl)

/- Section 16: theorems about the signer allowance flow (claim C8). -/

/-- Whether a trace contains any approval activity: building, signing or
broadcasting an approve transaction. -/
def hasApproveEvent (events : List SignerEvent) : Bool :=
  events.any fun e =>
    match e with
    | SignerEvent.buildApprove _ _ => true
    | SignerEvent.signTx => true
    | SignerEvent.broadcastTx => true
    | _ => false

/-- Number of confirmation polls in a trace. -/
def pollCount (events : List SignerEvent) : Nat :=
  events.countP fun e =>
    match e with
    | SignerEvent.pollInfo _ => true
    | _ => false

/-- Whether one poll outcome is a mined confirmation (an info object with a
truthy block number). -/
def pollConfirmed : PollOutcome → Bool
  | PollOutcome.got (some info) => jsTruthyOptNat info.blockNumber
  | _ => false

/-- The polling loop only appends sleep-3000 and poll events, at most one poll
per fuel unit. -/
lemma pollConfirm_tail : ∀ (fuel : Nat) (env : EnsureEnv) (events : List SignerEvent) (i : Nat),
    ∃ tail, (pollConfirm env events i fuel).1 = events ++ tail ∧
      (∀ e ∈ tail, e = SignerEvent.sleep 3000 ∨ ∃ j, e = SignerEvent.pollInfo j) ∧
      pollCount tail ≤ fuel := by
  intro fuel
  induction fuel with
  | zero =>
    intro env events i
    exact ⟨[], by simp [pollConfirm], by simp, by simp [pollCount]⟩
  | succ fuel ih =>
    intro env events i
    have hcont : ∀ (res : List SignerEvent × Except String Bool),
        res = pollConfirm env (events ++ [SignerEvent.sleep 3000, SignerEvent.pollInfo i]) (i + 1) fuel →
        ∃ tail, res.1 = events ++ tail ∧
          (∀ e ∈ tail, e = SignerEvent.sleep 3000 ∨ ∃ j, e = SignerEvent.pollInfo j) ∧
          pollCount tail ≤ fuel + 1 := by
      intro res hres
      obtain ⟨t2, h1, h2, h3⟩ := ih env (events ++ [SignerEvent.sleep 3000, SignerEvent.pollInfo i]) (i + 1)
      refine ⟨[SignerEvent.sleep 3000, SignerEvent.pollInfo i] ++ t2, ?_, ?_, ?_⟩
      · rw [hres, h1, List.append_assoc]
      · intro e he
        rcases List.mem_append.mp he with hl | hr
        · rcases List.mem_cons.mp hl with rfl | hl2
          · exact Or.inl rfl
          · rcases List.mem_cons.mp hl2 with rfl | hl3
            · exact Or.inr ⟨i, rfl⟩
            · cases hl3
        · exact h2 e hr
      · rw [pollCount, List.countP_append]
        have : List.countP (fun e =>
            match e with
            | SignerEvent.pollInfo _ => true
            | _ => false) [SignerEvent.sleep 3000, SignerEvent.pollInfo i] = 1 := rfl
        rw [this]
        rw [pollCount] at h3
        omega
    cases hpoll : env.polls i with
    | threw m => exact hcont _ (by simp [pollConfirm, hpoll])
    | got info =>
      cases info with
      | none => exact hcont _ (by simp [pollConfirm, hpoll])
      | some txinfo =>
        cases htruthy : jsTruthyOptNat txinfo.blockNumber with
        | false => exact hcont _ (by simp [pollConfirm, hpoll, htruthy])
        | true =>
          refine ⟨[SignerEvent.sleep 3000, SignerEvent.pollInfo i], ?_, ?_, ?_⟩
          · simp [pollConfirm, hpoll, htruthy]
          · intro e he
            rcases List.mem_cons.mp he with rfl | he2
            · exact Or.inl rfl
            · rcases List.mem_cons.mp he2 with rfl | he3
              · exact Or.inr ⟨i, rfl⟩
              · cases he3
          · rw [pollCount]
            simp [List.countP_cons]

/-- When no poll ever confirms, the loop exhausts its window and assumes
success. -/
lemma pollConfirm_all_unconfirmed : ∀ (fuel : Nat) (env : EnsureEnv)
    (events : List SignerEvent) (i : Nat),
    (∀ j, pollConfirmed (env.polls j) = false) →
    (pollConfirm env events i fuel).2 = Except.ok true := by
  intro fuel
  induction fuel with
  | zero =>
    intro env events i _
    rfl
  | succ fuel ih =>
    intro env events i hall
    cases hpoll : env.polls i with
    | threw m =>
      rw [pollConfirm, hpoll]
      exact ih env _ (i + 1) hall
    | got info =>
      cases info with
      | none =>
        rw [pollConfirm, hpoll]
        exact ih env _ (i + 1) hall
      | some txinfo =>
        have hfalse := hall i
        rw [hpoll] at hfalse
        simp only [pollConfirmed] at hfalse
        simp only [pollConfirm, hpoll]
        rw [if_neg (by simp [hfalse])]
        exact ih env _ (i + 1) hall

/-- The auto mode with insufficient allowance and a successful build and
broadcast runs the confirmation loop after the query, build, sign and
broadcast events. -/
lemma ensureAllowance_auto_run (token : String) (amount : Nat) (network : String)
    (thisNetwork : Option String) (env : EnsureEnv) (r : String)
    (hres : resolveNetwork network thisNetwork = some r)
    (hlt : env.allowance < amount) (hb : env.buildOk = true) (hbr : env.broadcastOk = true) :
    ensureAllowance token amount network AllowanceMode.auto thisNetwork env =
      pollConfirm env
        [SignerEvent.checkAllowanceQuery,
         SignerEvent.buildApprove (toEvmHex (getPaymentPermitAddress r)) (2 ^ 160 - 1),
         SignerEvent.signTx, SignerEvent.broadcastTx] 0 10 := by
  simp only [ensureAllowance, hres]
  rw [if_neg (not_le.mpr hlt)]
  simp [hb, hbr]

/-- Claim C8: the three-mode contract of ensureAllowance. Skip returns true
with no chain query or approval; any mode with a covering allowance returns
true without approval activity; interactive mode with insufficient allowance
throws the insufficient-allowance error after the query alone, sending
nothing; auto mode with insufficient allowance broadcasts an approval and
polls its confirmation at most 10 times at a fixed 3000 millisecond interval,
and returns true (assuming success) when the window elapses with no
confirmation. -/
theorem ensureAllowance_mode_contract (token : String) (amount : Nat) (network : String)
    (mode : AllowanceMode) (thisNetwork : Option String) (env : EnsureEnv) :
    (mode = AllowanceMode.skip →
      ensureAllowance token amount network mode thisNetwork env = ([], Except.ok true)) ∧
    (∀ r, resolveNetwork network thisNetwork = some r → amount ≤ env.allowance →
      (ensureAllowance token amount network mode thisNetwork env).2 = Except.ok true ∧
      hasApproveEvent (ensureAllowance token amount network mode thisNetwork env).1 = false) ∧
    (∀ r, resolveNetwork network thisNetwork = some r → env.allowance < amount →
      mode = AllowanceMode.interactive →
      ensureAllowance token amount network mode thisNetwork env =
        ([SignerEvent.checkAllowanceQuery],
         Except.error "Interactive approval not implemented - use wallet UI")) ∧
    (∀ r, resolveNetwork network thisNetwork = some r → env.allowance < amount →
      mode = AllowanceMode.auto → env.buildOk = true → env.broadcastOk = true →
      SignerEvent.broadcastTx ∈ (ensureAllowance token amount network mode thisNetwork env).1 ∧
      pollCount (ensureAllowance token amount network mode thisNetwork env).1 ≤ 10 ∧
      (∀ ms, SignerEvent.sleep ms ∈ (ensureAllowance token amount network mode thisNetwork env).1 →
        ms = 3000) ∧
      ((∀ j, pollConfirmed (env.polls j) = false) →
        (ensureAllowance token amount network mode thisNetwork env).2 = Except.ok true)) := by
  refine ⟨fun hm => by rw [hm]; rfl, fun r hres hcov => ?_, fun r hres hlt hm => ?_,
    fun r hres hlt hm hb hbr => ?_⟩
  · cases mode with
    | skip => exact ⟨rfl, rfl⟩
    | interactive =>
      constructor
      · simp only [ensureAllowance, hres]
        rw [if_pos hcov]
      · simp only [ensureAllowance, hres]
        rw [if_pos hcov]
        rfl
    | auto =>
      constructor
      · simp only [ensureAllowance, hres]
        rw [if_pos hcov]
      · simp only [ensureAllowance, hres]
        rw [if_pos hcov]
        rfl
  · subst hm
    simp only [ensureAllowance, hres]
    rw [if_neg (not_le.mpr hlt)]
  · subst hm
    rw [ensureAllowance_auto_run token amount network thisNetwork env r hres hlt hb hbr]
    obtain ⟨tail, h1, h2, h3⟩ := pollConfirm_tail 10 env
      [SignerEvent.checkAllowanceQuery,
       SignerEvent.buildApprove (toEvmHex (getPaymentPermitAddress r)) (2 ^ 160 - 1),
       SignerEvent.signTx, SignerEvent.broadcastTx] 0
    refine ⟨?_, ?_, ?_, ?_⟩
    · rw [h1]
      exact List.mem_append.mpr (Or.inl (by simp))
    · rw [h1, pollCount, List.countP_append]
      have hpre : List.countP (fun e =>
          match e with
          | SignerEvent.pollInfo _ => true
          | _ => false)
          [SignerEvent.checkAllowanceQuery,
           SignerEvent.buildApprove (toEvmHex (getPaymentPermitAddress r)) (2 ^ 160 - 1),
           SignerEvent.signTx, SignerEvent.broadcastTx] = 0 := rfl
      rw [hpre]
      rw [pollCount] at h3
      omega
    · intro ms hms
      rw [h1] at hms
      rcases List.mem_append.mp hms with hl | hr
      · simp at hl
      · rcases h2 _ hr with heq | ⟨j, heq⟩
        · injection heq
        · exact SignerEvent.noConfusion heq
    · intro hall
      exact pollConfirm_all_unconfirmed 10 env _ 0 hall

/-- Witness for C8 at concrete runs: skip mode, a covering allowance in auto
mode, interactive fail-fast, and an auto run whose ten polls all miss. -/
theorem ensureAllowance_mode_contract_witness :
    ensureAllowance "Ttok" 5 "tron:nile" AllowanceMode.skip none
        ⟨0, true, true, fun _ => PollOutcome.threw "pending"⟩ = ([], Except.ok true) ∧
    (ensureAllowance "Ttok" 5 "tron:nile" AllowanceMode.auto none
        ⟨9, true, true, fun _ => PollOutcome.threw "pending"⟩).2 = Except.ok true ∧
    ensureAllowance "Ttok" 5 "tron:nile" AllowanceMode.interactive none
        ⟨0, true, true, fun _ => PollOutcome.threw "pending"⟩ =
      ([SignerEvent.checkAllowanceQuery],
       Except.error "Interactive approval not implemented - use wallet UI") ∧
    (ensureAllowance "Ttok" 5 "tron:nile" AllowanceMode.auto none
        ⟨0, true, true, fun _ => PollOutcome.threw "pending"⟩).2 = Except.ok true ∧
    pollCount (ensureAllowance "Ttok" 5 "tron:nile" AllowanceMode.auto none
        ⟨0, true, true, fun _ => PollOutcome.threw "pending"⟩).1 ≤ 10 :=
  ⟨(ensureAllowance_mode_contract "Ttok" 5 "tron:nile" AllowanceMode.skip none
      ⟨0, true, true, fun _ => PollOutcome.threw "pending"⟩).1 rfl,
   ((ensureAllowance_mode_contract "Ttok" 5 "tron:nile" AllowanceMode.auto none
      ⟨9, true, true, fun _ => PollOutcome.threw "pending"⟩).2.1 "tron:nile" rfl (by decide)).1,
   (ensureAllowance_mode_contract "Ttok" 5 "tron:nile" AllowanceMode.interactive none
      ⟨0, true, true, fun _ => PollOutcome.threw "pending"⟩).2.2.1 "tron:nile" rfl
      (by decide) rfl,
   ((ensureAllowance_mode_contract "Ttok" 5 "tron:nile" AllowanceMode.auto none
      ⟨0, true, true, fun _ => PollOutcome.threw "pending"⟩).2.2.2 "tron:nile" rfl
      (by decide) rfl rfl rfl).2.2.2 (fun _ => rfl),
   ((ensureAllowance_mode_contract "Ttok" 5 "tron:nile" AllowanceMode.auto none
      ⟨0, true, true, fun _ => PollOutcome.threw "pending"⟩).2.2.2 "tron:nile" rfl
      (by decide) rfl rfl rfl).2.1⟩

end X402
